import Mathlib

/-!
Pipeline assembly, name lookup and report drivers of the reporting core
(`src/chain.cc`, `src/report.cc`).

A shallow embedding of `chain_xact_handlers`, the function that turns the
options of a `report_t` into a chain of posting handlers wrapped around a
terminal handler, of `report_t::lookup`, the switch that resolves a name to
a functor or hands it to the session, of the drivers `xacts_report`,
`entry_report`, `sum_all_accounts` and `accounts_report`, and of the value
accessor `display_date`, together with theorems about the assembled chain,
the resolved names, the calls the drivers make and the displayed date.

Modelling conventions.

* `std::string` is a list of characters; `s.empty()` is `List.isEmpty`.
  A `const char *` obtained by `c_str()` is the list in front of the first
  NUL (`c_str`), `*(p + i)` is `deref p i`, and `strcmp`, `strncmp` compare
  such lists.
* A handler object is described by its class and the constructor arguments
  other than the downstream handler (`stage_t`), and a chain is either the
  terminal handler supplied by the caller or a stage that owns its
  downstream chain (`xact_handler`).
* The declarations of `keep_details_t`, `session_t`, `expr_t`, `value_t` and
  `date_t` are not part of the sources at hand; they are type parameters.
  The functions `CURRENT_DATE`, `parse_date` and the conversion
  `value_t(const string&)` are parameters too (`deps_t`).
* The value of `report_t::lookup` is a functor made inside the switch or the
  call `session.lookup(name)`, kept as that call (`ptr_op_t`).
* The functions the drivers call in other translation units are parameters
  (`driver_ops`); a call either returns or raises an error (`outcome`).
  What the spec says about the clean-up functions is modelled on
  `session_state`.
* `display_date` reads its report and its item from the call scope
  (`call_scope_t`); `format_date` and `string_value` are parameters.
* The classes of the stages are defined in `filters.h`, not part of the
  sources at hand.  What a filter and the related expansion forward is
  modelled on what the spec says (`forward`); the other classes are a
  parameter of the model (`stage_model`).
-/

namespace ledger

/-- Model of `std::string`. -/
abbrev string := List Char

/-- The value `std::string::npos` is `none`; a found position is `some pos`.
Model of `s.find(c, beg)`: the least position `pos ≥ beg` with `s[pos] = c`. -/
def string_find (s : string) (c : Char) (beg : Nat) : Option Nat :=
  let i := (s.drop beg).indexOf c
  if i < (s.drop beg).length then some (beg + i) else none

/-- Model of the constructor `std::string(s, beg, len)`. -/
def string_sub (s : string) (beg len : Nat) : string :=
  (s.drop beg).take len

/-- Model of the constructor `std::string(s, beg)`. -/
def string_from (s : string) (beg : Nat) : string :=
  s.drop beg

/-- The fields of `report_t` read by `chain_xact_handlers`.  The entry
counts are signed integers, the flags are booleans and the expressions and
dates are kept as the strings the options store. -/
structure report_t (keep_details_t session_t expr_t : Type) where
  head_entries : Int
  tail_entries : Int
  display_predicate : string
  what_to_keep : keep_details_t
  descend_expr : string
  reconcile_balance : string
  reconcile_date : string
  secondary_predicate : string
  sort_string : string
  entry_sort : Bool
  show_revalued : Bool
  total_expr : expr_t
  show_revalued_only : Bool
  show_collapsed : Bool
  session : session_t
  show_subtotal : Bool
  days_of_the_week : Bool
  by_payee : Bool
  report_period : string
  show_inverted : Bool
  show_related : Bool
  show_all_related : Bool
  anonymize : Bool
  predicate : string
  comm_as_payee : Bool
  code_as_payee : Bool

/-- The functions of other translation units called by
`chain_xact_handlers`. -/
structure deps_t (value_t date_t : Type) where
  CURRENT_DATE : date_t
  parse_date : string → date_t
  value_of_string : string → value_t

/-- The class of a handler object. -/
inductive class_t where
  | truncate_entries
  | filter_xacts
  | calc_xacts
  | component_xacts
  | reconcile_xacts
  | sort_entries
  | sort_xacts
  | changed_value_xacts
  | collapse_xacts
  | subtotal_xacts
  | dow_xacts
  | by_payee_xacts
  | interval_xacts
  | invert_xacts
  | related_xacts
  | anonymize_xacts
  | set_comm_as_payee
  | set_code_as_payee
  deriving DecidableEq

/-- A handler object without its downstream handler: the class and the
remaining constructor arguments, in the order of the `new` expressions of
`chain_xact_handlers`.  `item_predicate<xact_t>(expr, keep)` is the pair of
its two arguments. -/
inductive stage_t (keep_details_t session_t expr_t value_t date_t : Type) where
  | truncate_entries (head_entries tail_entries : Int)
  | filter_xacts (predicate : string) (what_to_keep : keep_details_t)
  | calc_xacts
  | component_xacts (predicate : string) (what_to_keep : keep_details_t)
  | reconcile_xacts (balance : value_t) (cutoff : date_t)
  | sort_entries (sort_string : string)
  | sort_xacts (sort_string : string)
  | changed_value_xacts (total_expr : expr_t) (show_revalued_only : Bool)
  | collapse_xacts (session : session_t)
  | subtotal_xacts (remember_components : Bool)
  | dow_xacts (remember_components : Bool)
  | by_payee_xacts (remember_components : Bool)
  | interval_xacts (report_period : string) (remember_components : Bool)
  | invert_xacts
  | related_xacts (show_all_related : Bool)
  | anonymize_xacts
  | set_comm_as_payee
  | set_code_as_payee
  deriving DecidableEq

/-- A chain of handlers: the terminal handler handed in by the caller, or a
stage holding its downstream handler. -/
inductive xact_handler (β keep_details_t session_t expr_t value_t date_t : Type) where
  | base (b : β)
  | stage (s : stage_t keep_details_t session_t expr_t value_t date_t)
      (handler : xact_handler β keep_details_t session_t expr_t value_t date_t)
  deriving DecidableEq

section defs

variable {β keep_details_t session_t expr_t value_t date_t : Type}

/-- The class of a stage. -/
def stage_t.kind : stage_t keep_details_t session_t expr_t value_t date_t → class_t
  | .truncate_entries _ _ => .truncate_entries
  | .filter_xacts _ _ => .filter_xacts
  | .calc_xacts => .calc_xacts
  | .component_xacts _ _ => .component_xacts
  | .reconcile_xacts _ _ => .reconcile_xacts
  | .sort_entries _ => .sort_entries
  | .sort_xacts _ => .sort_xacts
  | .changed_value_xacts _ _ => .changed_value_xacts
  | .collapse_xacts _ => .collapse_xacts
  | .subtotal_xacts _ => .subtotal_xacts
  | .dow_xacts _ => .dow_xacts
  | .by_payee_xacts _ => .by_payee_xacts
  | .interval_xacts _ _ => .interval_xacts
  | .invert_xacts => .invert_xacts
  | .related_xacts _ => .related_xacts
  | .anonymize_xacts => .anonymize_xacts
  | .set_comm_as_payee => .set_comm_as_payee
  | .set_code_as_payee => .set_code_as_payee

/-- The stages of a chain in execution order: the head is the handler the
driver feeds, the last element is the stage in front of the terminal
handler. -/
def xact_handler.stages :
    xact_handler β keep_details_t session_t expr_t value_t date_t →
      List (stage_t keep_details_t session_t expr_t value_t date_t)
  | .base _ => []
  | .stage s handler => s :: handler.stages

/-- The terminal handler at the inner end of a chain. -/
def xact_handler.terminal :
    xact_handler β keep_details_t session_t expr_t value_t date_t → β
  | .base b => b
  | .stage _ handler => handler.terminal

/-- The loop of `chain.cc` lines 74-80 that cuts `descend_expr` at every
`;`.  `fuel` bounds the number of iterations; `chain_xact_handlers` supplies
one more than the length of the string, which the loop never exhausts. -/
def split_descend_expr (descend_expr : string) :
    Nat → Nat → List string → List string
  | 0, _, descend_exprs => descend_exprs
  | fuel + 1, beg, descend_exprs =>
    match string_find descend_expr ';' beg with
    | some pos =>
      split_descend_expr descend_expr fuel (pos + 1)
        (descend_exprs ++ [string_sub descend_expr beg (pos - beg)])
    | none => descend_exprs ++ [string_from descend_expr beg]

/-- Embedding of `chain_xact_handlers` (`chain.cc` lines 38-231).  Every
`handler.reset(new X(handler, args))` is `.stage (.X args) handler`; the
block under `#if 0` (budget and forecast) and the `DEBUG` statement are not
compiled and have no counterpart. -/
def chain_xact_handlers (deps : deps_t value_t date_t)
    (report : report_t keep_details_t session_t expr_t)
    (base_handler : β) (handle_individual_xacts : Bool) :
    xact_handler β keep_details_t session_t expr_t value_t date_t :=
  let remember_components := false
  let handler : xact_handler β keep_details_t session_t expr_t value_t date_t :=
    .base base_handler
  let handler :=
    if handle_individual_xacts then
      let handler :=
        if report.head_entries ≠ 0 ∨ report.tail_entries ≠ 0 then
          .stage (.truncate_entries report.head_entries report.tail_entries) handler
        else handler
      let handler :=
        if !report.display_predicate.isEmpty then
          .stage (.filter_xacts report.display_predicate report.what_to_keep) handler
        else handler
      let handler := .stage .calc_xacts handler
      let (handler, remember_components) :=
        if !report.descend_expr.isEmpty then
          let descend_exprs :=
            split_descend_expr report.descend_expr (report.descend_expr.length + 1) 0 []
          let handler :=
            descend_exprs.reverse.foldl
              (fun handler i => .stage (.component_xacts i report.what_to_keep) handler)
              handler
          (handler, true)
        else (handler, remember_components)
      let handler :=
        if !report.reconcile_balance.isEmpty then
          let cutoff := deps.CURRENT_DATE
          let cutoff :=
            if !report.reconcile_date.isEmpty then deps.parse_date report.reconcile_date
            else cutoff
          .stage (.reconcile_xacts (deps.value_of_string report.reconcile_balance) cutoff)
            handler
        else handler
      let handler :=
        if !report.secondary_predicate.isEmpty then
          .stage (.filter_xacts report.secondary_predicate report.what_to_keep) handler
        else handler
      let handler :=
        if !report.sort_string.isEmpty then
          if report.entry_sort then .stage (.sort_entries report.sort_string) handler
          else .stage (.sort_xacts report.sort_string) handler
        else handler
      let handler :=
        if report.show_revalued then
          .stage (.changed_value_xacts report.total_expr report.show_revalued_only) handler
        else handler
      let handler :=
        if report.show_collapsed then .stage (.collapse_xacts report.session) handler
        else handler
      let handler :=
        if report.show_subtotal then .stage (.subtotal_xacts remember_components) handler
        else handler
      let handler :=
        if report.days_of_the_week then .stage (.dow_xacts remember_components) handler
        else if report.by_payee then .stage (.by_payee_xacts remember_components) handler
        else handler
      let handler :=
        if !report.report_period.isEmpty then
          let handler :=
            .stage (.interval_xacts report.report_period remember_components) handler
          .stage (.sort_xacts ['d']) handler
        else handler
      handler
    else handler
  let handler :=
    if report.show_inverted then .stage .invert_xacts handler else handler
  let handler :=
    if report.show_related then .stage (.related_xacts report.show_all_related) handler
    else handler
  let handler :=
    if report.anonymize then .stage .anonymize_xacts handler else handler
  let handler :=
    if !report.predicate.isEmpty then
      .stage (.filter_xacts report.predicate report.what_to_keep) handler
    else handler
  let handler :=
    if report.comm_as_payee then .stage .set_comm_as_payee handler
    else if report.code_as_payee then .stage .set_code_as_payee handler
    else handler
  handler

/-- The stages of steps 12 to 16, in execution order. -/
def tail_stages (report : report_t keep_details_t session_t expr_t) :
    List (stage_t keep_details_t session_t expr_t value_t date_t) :=
  (if report.comm_as_payee then [.set_comm_as_payee]
    else if report.code_as_payee then [.set_code_as_payee] else []) ++
  ((if !report.predicate.isEmpty then
      [.filter_xacts report.predicate report.what_to_keep] else []) ++
  ((if report.anonymize then [.anonymize_xacts] else []) ++
  ((if report.show_related then [.related_xacts report.show_all_related] else []) ++
  (if report.show_inverted then [.invert_xacts] else []))))

/-- The stages of steps 5 to 11, in execution order. -/
def upper_stages (deps : deps_t value_t date_t)
    (report : report_t keep_details_t session_t expr_t) :
    List (stage_t keep_details_t session_t expr_t value_t date_t) :=
  (if !report.report_period.isEmpty then
      [.sort_xacts ['d'],
        .interval_xacts report.report_period (!report.descend_expr.isEmpty)]
    else []) ++
  ((if report.days_of_the_week then [.dow_xacts (!report.descend_expr.isEmpty)]
    else if report.by_payee then [.by_payee_xacts (!report.descend_expr.isEmpty)]
    else []) ++
  ((if report.show_subtotal then [.subtotal_xacts (!report.descend_expr.isEmpty)]
    else []) ++
  ((if report.show_collapsed then [.collapse_xacts report.session] else []) ++
  ((if report.show_revalued then
      [.changed_value_xacts report.total_expr report.show_revalued_only] else []) ++
  ((if !report.sort_string.isEmpty then
      (if report.entry_sort then [.sort_entries report.sort_string]
        else [.sort_xacts report.sort_string])
    else []) ++
  ((if !report.secondary_predicate.isEmpty then
      [.filter_xacts report.secondary_predicate report.what_to_keep] else []) ++
  (if !report.reconcile_balance.isEmpty then
      [.reconcile_xacts (deps.value_of_string report.reconcile_balance)
        (if !report.reconcile_date.isEmpty then deps.parse_date report.reconcile_date
          else deps.CURRENT_DATE)]
    else [])))))))

/-- The stages of step 4, in execution order. -/
def component_stages (report : report_t keep_details_t session_t expr_t) :
    List (stage_t keep_details_t session_t expr_t value_t date_t) :=
  if !report.descend_expr.isEmpty then
    (split_descend_expr report.descend_expr (report.descend_expr.length + 1) 0 []).map
      (fun i => .component_xacts i report.what_to_keep)
  else []

/-- The stages of steps 1 to 3, in execution order. -/
def lower_stages (report : report_t keep_details_t session_t expr_t) :
    List (stage_t keep_details_t session_t expr_t value_t date_t) :=
  [.calc_xacts] ++
  ((if !report.display_predicate.isEmpty then
      [.filter_xacts report.display_predicate report.what_to_keep] else []) ++
  (if report.head_entries ≠ 0 ∨ report.tail_entries ≠ 0 then
      [.truncate_entries report.head_entries report.tail_entries] else []))

/-- The reading of spec §4.2 used by the ordering theorem:
`canonical_step report n s` holds when `s` is a stage that step `n` of the
canonical order builds from the configuration `report`. -/
def canonical_step (report : report_t keep_details_t session_t expr_t) (n : Nat)
    (s : stage_t keep_details_t session_t expr_t value_t date_t) : Prop :=
  match n with
  | 1 => s = .truncate_entries report.head_entries report.tail_entries
  | 2 => s = .filter_xacts report.display_predicate report.what_to_keep
  | 3 => s = .calc_xacts
  | 4 => s.kind = .component_xacts
  | 5 => s.kind = .reconcile_xacts
  | 6 => s = .filter_xacts report.secondary_predicate report.what_to_keep
  | 7 => s = .sort_entries report.sort_string ∨ s = .sort_xacts report.sort_string
  | 8 => s = .changed_value_xacts report.total_expr report.show_revalued_only
  | 9 => s = .collapse_xacts report.session
  | 10 => s.kind = .subtotal_xacts ∨ s.kind = .dow_xacts ∨ s.kind = .by_payee_xacts
  | 11 => s.kind = .interval_xacts ∨ s = .sort_xacts ['d']
  | 12 => s = .invert_xacts
  | 13 => s = .related_xacts report.show_all_related
  | 14 => s = .anonymize_xacts
  | 15 => s = .filter_xacts report.predicate report.what_to_keep
  | 16 => s = .set_comm_as_payee ∨ s = .set_code_as_payee
  | _ => False

/-- A list of stages that can be numbered with steps of the canonical order,
all at most `n`, so that the numbers never increase along the list. -/
def ordered_below (report : report_t keep_details_t session_t expr_t) (n : Nat)
    (l : List (stage_t keep_details_t session_t expr_t value_t date_t)) : Prop :=
  ∃ tagged : List (Nat × stage_t keep_details_t session_t expr_t value_t date_t),
    tagged.map Prod.snd = l ∧
    (∀ x ∈ tagged, x.1 ≤ n ∧ canonical_step report x.1 x.2) ∧
    tagged.Pairwise (fun a b => b.1 ≤ a.1)

/-- Whether some occurrence of `a` in the list lies at an earlier position
than some occurrence of `b`: in a chain, `a` is upstream of `b`. -/
def occurs_before {α : Type} [DecidableEq α] (a b : α) : List α → Bool
  | [] => false
  | x :: xs => (decide (x = a) && decide (b ∈ xs)) || occurs_before a b xs

/-- A configuration with every option switched off, over trivial
`keep_details_t`, `session_t` and `expr_t`; concrete inputs are variations
of it. -/
def plain_report : report_t Unit Unit Unit :=
  { head_entries := 0, tail_entries := 0, display_predicate := [], what_to_keep := (),
    descend_expr := [], reconcile_balance := [], reconcile_date := [],
    secondary_predicate := [], sort_string := [], entry_sort := false,
    show_revalued := false, total_expr := (), show_revalued_only := false,
    show_collapsed := false, session := (), show_subtotal := false,
    days_of_the_week := false, by_payee := false, report_period := [],
    show_inverted := false, show_related := false, show_all_related := false,
    anonymize := false, predicate := [], comm_as_payee := false, code_as_payee := false }

/-- Symbolic externals for concrete inputs: a value is the string it is
converted from, the current date is `none` and a parsed date is `some` of
its text. -/
def plain_deps : deps_t string (Option string) :=
  { CURRENT_DATE := none, parse_date := some, value_of_string := id }

end defs

section lookup_defs

/-- The terminating character of a C string. -/
def NUL : Char := Char.ofNat 0

/-- Model of `name.c_str()` read through a `const char *`: the characters
in front of the first NUL. -/
def c_str (name : string) : string :=
  name.takeWhile (fun c => decide (c ≠ NUL))

/-- Model of `*(p + i)` for a C string `p`: its `i`-th character, or NUL at
the end of the string. -/
def deref (p : string) (i : Nat) : Char :=
  p.getD i NUL

/-- Model of `std::strcmp` on C strings: zero exactly for equal strings
(a non-zero result is `1`, its sign is not modelled). -/
def strcmp (p q : string) : Int :=
  if p = q then 0 else 1

/-- Model of `std::strncmp`: `strcmp` on the first `n` characters. -/
def strncmp (p q : string) (n : Nat) : Int :=
  strcmp (p.take n) (q.take n)

/-- The members read by `report_t::lookup`: `format_string` of the report
and the three default formats of its session. -/
structure lookup_env where
  format_string : string
  balance_format : string
  register_format : string
  print_format : string

/-- The formatter objects created by the commands, with their format
string. -/
inductive formatter_t where
  | format_accounts (format : string)
  | format_equity (format : string)
  | format_xacts (format : string)
  deriving DecidableEq

/-- The `report_method` template argument of `reporter`. -/
inductive report_method_t where
  | xacts_report
  | accounts_report
  deriving DecidableEq

/-- The member functions of `report_t` and the free functions that
`report_t::lookup` wraps by name (`MAKE_FUNCTOR`, `WRAP_FUNCTOR`). -/
inductive function_t where
  | get_amount_expr
  | get_display_total
  | display_date
  | args_command
  | parse_command
  | period_command
  | eval_command
  | format_command
  | f_market_value
  | option_amount_
  | option_ansi
  | option_ansi_invert
  | option_anon
  | option_begin_
  | option_base
  | option_by_payee
  | option_current
  | option_collapse
  | option_cleared
  | option_cost
  | option_comm_as_payee
  | option_code_as_payee
  | option_daily
  | option_dow
  | option_date_format_
  | option_ignore_
  | option_end_
  | option_empty
  | option_format_
  | option_head_
  | option_input_date_format_
  | option_amount_data
  | option_limit_
  | option_monthly
  | option_market
  | option_period_
  | option_period_sort_
  | option_price
  | option_price_db_
  | option_pager_
  | option_quarterly
  | option_quantity
  | option_related
  | option_subtotal
  | option_sort_
  | option_sort_entries_
  | option_sort_all_
  | option_total_
  | option_totals
  | option_tail_
  | option_uncleared
  | option_ignore
  | option_weekly
  | option_yearly
  | option_total_data
  | print_balance
  | strip_annotations
  | get_total_expr
  | truncate
  deriving DecidableEq

/-- The callable wrapped into the returned functor: a named function, or a
`reporter` object holding its formatter and its report method. -/
inductive functor_t where
  | named (f : function_t)
  | reporter (handler : formatter_t) (report_method : report_method_t)
  deriving DecidableEq

/-- The value returned by `report_t::lookup`: a functor made at one of the
`return` statements inside the switch, or the result of the final
`return session.lookup(name)`, kept as that call. -/
inductive ptr_op_t where
  | functor (f : functor_t)
  | session_lookup (name : string)
  deriving DecidableEq

/-- The macro `FORMAT(str)` of `report.cc` line 215, applied to the session
default `str`. -/
def FORMAT (env : lookup_env) (str : string) : string :=
  if env.format_string.isEmpty then str else env.format_string

/-- The switch of `report_t::lookup` under the prefix `ledger_cmd_`
(`report.cc` lines 231-265); `none` when control leaves it by `break`. -/
def lookup_cmd (env : lookup_env) (p : string) : Option functor_t :=
  if deref p 0 = 'b' then
    if deref p 1 = NUL ∨ strcmp p "bal".toList = 0 ∨ strcmp p "balance".toList = 0 then
      some (.reporter (.format_accounts (FORMAT env env.balance_format)) .accounts_report)
    else none
  else if deref p 0 = 'e' then
    if strcmp p "equity".toList = 0 then
      some (.reporter (.format_equity (FORMAT env env.print_format)) .accounts_report)
    else none
  else if deref p 0 = 'p' then
    if deref p 1 = NUL ∨ strcmp p "print".toList = 0 then
      some (.reporter (.format_xacts (FORMAT env env.print_format)) .xacts_report)
    else none
  else if deref p 0 = 'r' then
    if deref p 1 = NUL ∨ strcmp p "reg".toList = 0 ∨ strcmp p "register".toList = 0 then
      some (.reporter (.format_xacts (FORMAT env env.register_format)) .xacts_report)
    else none
  else none

/-- The switch under the prefix `ledger_precmd_` (`report.cc` lines
267-291). -/
def lookup_precmd (p : string) : Option functor_t :=
  if deref p 0 = 'a' then
    if strcmp p "args".toList = 0 then some (.named .args_command) else none
  else if deref p 0 = 'p' then
    if strcmp p "parse".toList = 0 then some (.named .parse_command)
    else if strcmp p "period".toList = 0 then some (.named .period_command)
    else none
  else if deref p 0 = 'e' then
    if strcmp p "eval".toList = 0 then some (.named .eval_command) else none
  else if deref p 0 = 'f' then
    if strcmp p "format".toList = 0 then some (.named .format_command) else none
  else none

/-- The switch under the prefix `opt_` (`report.cc` lines 299-553). -/
def lookup_opt (p : string) : Option functor_t :=
  if deref p 0 = 'a' then
    if strcmp p "amount_".toList = 0 then some (.named .option_amount_)
    else if strcmp p "ansi".toList = 0 then some (.named .option_ansi)
    else if strcmp p "ansi-invert".toList = 0 then some (.named .option_ansi_invert)
    else if strcmp p "anon".toList = 0 then some (.named .option_anon)
    else none
  else if deref p 0 = 'b' then
    if strcmp p "b_".toList = 0 ∨ strcmp p "begin_".toList = 0 then some (.named .option_begin_)
    else if strcmp p "base".toList = 0 then some (.named .option_base)
    else if strcmp p "by-payee".toList = 0 then some (.named .option_by_payee)
    else none
  else if deref p 0 = 'c' then
    if deref p 1 = NUL ∨ strcmp p "current".toList = 0 then some (.named .option_current)
    else if strcmp p "collapse".toList = 0 then some (.named .option_collapse)
    else if strcmp p "cleared".toList = 0 then some (.named .option_cleared)
    else if strcmp p "cost".toList = 0 then some (.named .option_cost)
    else if strcmp p "comm-as-payee".toList = 0 then some (.named .option_comm_as_payee)
    else if strcmp p "code-as-payee".toList = 0 then some (.named .option_code_as_payee)
    else none
  else if deref p 0 = 'd' then
    if strcmp p "daily".toList = 0 then some (.named .option_daily)
    else if strcmp p "dow".toList = 0 then some (.named .option_dow)
    else if strcmp p "date-format_".toList = 0 then some (.named .option_date_format_)
    else if strcmp p "debug_".toList = 0 then some (.named .option_ignore_)
    else none
  else if deref p 0 = 'e' then
    if strcmp p "e_".toList = 0 ∨ strcmp p "end_".toList = 0 then some (.named .option_end_)
    else if strcmp p "empty".toList = 0 then some (.named .option_empty)
    else none
  else if deref p 0 = 'f' then
    if strcmp p "format_".toList = 0 then some (.named .option_format_)
    else none
  else if deref p 0 = 'h' then
    if strcmp p "head_".toList = 0 then some (.named .option_head_)
    else none
  else if deref p 0 = 'i' then
    if strcmp p "input-date-format_".toList = 0 then some (.named .option_input_date_format_)
    else none
  else if deref p 0 = 'j' then
    if deref p 1 = NUL then some (.named .option_amount_data)
    else none
  else if deref p 0 = 'l' then
    if strcmp p "l_".toList = 0 ∨ strcmp p "limit_".toList = 0 then some (.named .option_limit_)
    else none
  else if deref p 0 = 'm' then
    if strcmp p "monthly".toList = 0 then some (.named .option_monthly)
    else if strcmp p "market".toList = 0 then some (.named .option_market)
    else none
  else if deref p 0 = 'n' then
    if strcmp p "n".toList = 0 then some (.named .option_collapse)
    else none
  else if deref p 0 = 'p' then
    if strcmp p "p_".toList = 0 ∨ strcmp p "period_".toList = 0 then some (.named .option_period_)
    else if strcmp p "period_sort_".toList = 0 then some (.named .option_period_sort_)
    else if strcmp p "price".toList = 0 then some (.named .option_price)
    else if strcmp p "price_db_".toList = 0 then some (.named .option_price_db_)
    else if strcmp p "pager_".toList = 0 then some (.named .option_pager_)
    else none
  else if deref p 0 = 'q' then
    if strcmp p "quarterly".toList = 0 then some (.named .option_quarterly)
    else if strcmp p "quantity".toList = 0 then some (.named .option_quantity)
    else none
  else if deref p 0 = 'r' then
    if strcmp p "r".toList = 0 ∨ strcmp p "related".toList = 0 then some (.named .option_related)
    else none
  else if deref p 0 = 's' then
    if strcmp p "s".toList = 0 ∨ strcmp p "subtotal".toList = 0 then some (.named .option_subtotal)
    else if strcmp p "sort_".toList = 0 then some (.named .option_sort_)
    else if strcmp p "sort_entries_".toList = 0 then some (.named .option_sort_entries_)
    else if strcmp p "sort_all_".toList = 0 then some (.named .option_sort_all_)
    else none
  else if deref p 0 = 't' then
    if strcmp p "t_".toList = 0 then some (.named .option_amount_)
    else if strcmp p "total_".toList = 0 then some (.named .option_total_)
    else if strcmp p "totals".toList = 0 then some (.named .option_totals)
    else if strcmp p "tail_".toList = 0 then some (.named .option_tail_)
    else if strcmp p "trace_".toList = 0 then some (.named .option_ignore_)
    else none
  else if deref p 0 = 'u' then
    if strcmp p "uncleared".toList = 0 then some (.named .option_uncleared)
    else none
  else if deref p 0 = 'v' then
    if deref p 1 = NUL ∨ strcmp p "verbose".toList = 0 then some (.named .option_ignore)
    else if strcmp p "verify".toList = 0 then some (.named .option_ignore)
    else none
  else if deref p 0 = 'w' then
    if strcmp p "weekly".toList = 0 then some (.named .option_weekly)
    else none
  else if deref p 0 = 'x' then
    if strcmp p "x".toList ≠ 0 then some (.named .option_comm_as_payee)
    else none
  else if deref p 0 = 'y' then
    if strcmp p "yearly".toList = 0 then some (.named .option_yearly)
    else if strcmp p "y_".toList = 0 then some (.named .option_date_format_)
    else none
  else if deref p 0 = 'B' then
    if deref p 1 = NUL then some (.named .option_cost)
    else none
  else if deref p 0 = 'C' then
    if deref p 1 = NUL then some (.named .option_cleared)
    else none
  else if deref p 0 = 'E' then
    if deref p 1 = NUL then some (.named .option_empty)
    else none
  else if deref p 0 = 'F' then
    if strcmp p "F_".toList = 0 then some (.named .option_format_)
    else none
  else if deref p 0 = 'I' then
    if deref p 1 = NUL then some (.named .option_price)
    else none
  else if deref p 0 = 'J' then
    if deref p 1 = NUL then some (.named .option_total_data)
    else none
  else if deref p 0 = 'M' then
    if deref p 1 = NUL then some (.named .option_monthly)
    else none
  else if deref p 0 = 'O' then
    if deref p 1 = NUL then some (.named .option_quantity)
    else none
  else if deref p 0 = 'P' then
    if deref p 1 = NUL then some (.named .option_by_payee)
    else none
  else if deref p 0 = 'S' then
    if strcmp p "S_".toList = 0 then some (.named .option_sort_)
    else none
  else if deref p 0 = 'T' then
    if strcmp p "T_".toList = 0 then some (.named .option_total_)
    else none
  else if deref p 0 = 'U' then
    if deref p 1 = NUL then some (.named .option_uncleared)
    else none
  else if deref p 0 = 'V' then
    if deref p 1 = NUL then some (.named .option_market)
    else none
  else if deref p 0 = 'W' then
    if deref p 1 = NUL then some (.named .option_weekly)
    else none
  else if deref p 0 = 'Y' then
    if deref p 1 = NUL then some (.named .option_yearly)
    else none
  else none

/-- Embedding of `report_t::lookup` (`report.cc` lines 198-574).  A `return`
inside the switch yields `some` functor, a `break` falls through to the
final `return session.lookup(name)`. -/
def lookup (env : lookup_env) (name : string) : ptr_op_t :=
  let p := c_str name
  let found : Option functor_t :=
    if deref p 0 = 'a' then
      if strcmp p "amount_expr".toList = 0 then some (.named .get_amount_expr)
      else none
    else if deref p 0 = 'd' then
      if strcmp p "display_total".toList = 0 then some (.named .get_display_total)
      else if strcmp p "display_date".toList = 0 then some (.named .display_date)
      else none
    else if deref p 0 = 'l' then
      if strncmp p "ledger_cmd_".toList 11 = 0 then lookup_cmd env (p.drop 11)
      else if strncmp p "ledger_precmd_".toList 14 = 0 then lookup_precmd (p.drop 14)
      else none
    else if deref p 0 = 'm' then
      if strcmp p "market_value".toList = 0 then some (.named .f_market_value)
      else none
    else if deref p 0 = 'o' then
      if strncmp p "opt_".toList 4 = 0 then lookup_opt (p.drop 4)
      else none
    else if deref p 0 = 'p' then
      if strcmp p "print_balance".toList = 0 then some (.named .print_balance)
      else none
    else if deref p 0 = 's' then
      if strcmp p "strip".toList = 0 then some (.named .strip_annotations)
      else none
    else if deref p 0 = 't' then
      if strcmp p "total_expr".toList = 0 then some (.named .get_total_expr)
      else if strcmp p "truncate".toList = 0 then some (.named .truncate)
      else none
    else none
  match found with
  | some f => .functor f
  | none => .session_lookup name

/-- The option table of spec §4.4 without its row `comm-as-payee`/`x`: each
option name with the setter of its row; the names of an alias pair carry the
same setter. -/
def spec_option_table : List (String × function_t) :=
  [("amount_", function_t.option_amount_), ("t_", function_t.option_amount_),
   ("ansi", function_t.option_ansi), ("ansi-invert", function_t.option_ansi_invert),
   ("anon", function_t.option_anon), ("base", function_t.option_base),
   ("begin_", function_t.option_begin_), ("b_", function_t.option_begin_),
   ("by-payee", function_t.option_by_payee), ("P", function_t.option_by_payee),
   ("cleared", function_t.option_cleared), ("C", function_t.option_cleared),
   ("code-as-payee", function_t.option_code_as_payee),
   ("collapse", function_t.option_collapse), ("n", function_t.option_collapse),
   ("cost", function_t.option_cost), ("B", function_t.option_cost),
   ("current", function_t.option_current), ("c", function_t.option_current),
   ("daily", function_t.option_daily),
   ("date-format_", function_t.option_date_format_), ("y_", function_t.option_date_format_),
   ("dow", function_t.option_dow),
   ("empty", function_t.option_empty), ("E", function_t.option_empty),
   ("end_", function_t.option_end_), ("e_", function_t.option_end_),
   ("format_", function_t.option_format_), ("F_", function_t.option_format_),
   ("head_", function_t.option_head_),
   ("input-date-format_", function_t.option_input_date_format_),
   ("j", function_t.option_amount_data), ("J", function_t.option_total_data),
   ("limit_", function_t.option_limit_), ("l_", function_t.option_limit_),
   ("market", function_t.option_market), ("V", function_t.option_market),
   ("monthly", function_t.option_monthly), ("M", function_t.option_monthly),
   ("O", function_t.option_quantity),
   ("pager_", function_t.option_pager_),
   ("period_", function_t.option_period_), ("p_", function_t.option_period_),
   ("period_sort_", function_t.option_period_sort_),
   ("price", function_t.option_price), ("I", function_t.option_price),
   ("price_db_", function_t.option_price_db_),
   ("quantity", function_t.option_quantity),
   ("quarterly", function_t.option_quarterly),
   ("related", function_t.option_related), ("r", function_t.option_related),
   ("sort_", function_t.option_sort_), ("S_", function_t.option_sort_),
   ("sort_all_", function_t.option_sort_all_),
   ("sort_entries_", function_t.option_sort_entries_),
   ("subtotal", function_t.option_subtotal), ("s", function_t.option_subtotal),
   ("tail_", function_t.option_tail_),
   ("total_", function_t.option_total_), ("T_", function_t.option_total_),
   ("totals", function_t.option_totals),
   ("uncleared", function_t.option_uncleared), ("U", function_t.option_uncleared),
   ("weekly", function_t.option_weekly), ("W", function_t.option_weekly),
   ("yearly", function_t.option_yearly), ("Y", function_t.option_yearly),
   ("verbose", function_t.option_ignore), ("verify", function_t.option_ignore),
   ("debug_", function_t.option_ignore_), ("trace_", function_t.option_ignore_)]

/-- The row `comm-as-payee`/`x` of the option table of spec §4.4. -/
def spec_comm_as_payee_row : List (String × function_t) :=
  [("comm-as-payee", function_t.option_comm_as_payee), ("x", function_t.option_comm_as_payee)]

/-- The command names of spec §6. -/
def spec_cmd_names : List String :=
  ["bal", "balance", "equity", "print", "reg", "register"]

/-- The pre-command names of spec §6. -/
def spec_precmd_names : List String :=
  ["args", "parse", "period", "eval", "format"]

/-- The value accessors and formatter helpers of spec §4.4. -/
def spec_plain_names : List String :=
  ["amount_expr", "total_expr", "display_total", "display_date", "market_value",
   "print_balance", "strip", "truncate"]

/-- Every name the spec lists as recognised by the lookup, with its
prefix. -/
def spec_names : List string :=
  spec_plain_names.map String.toList ++
  spec_cmd_names.map (fun n => "ledger_cmd_".toList ++ n.toList) ++
  spec_precmd_names.map (fun n => "ledger_precmd_".toList ++ n.toList) ++
  (spec_option_table ++ spec_comm_as_payee_row).map (fun row => "opt_".toList ++ row.1.toList)

/-- The one-letter names the switch accepts besides the names of the spec:
the commands `b`, `p`, `r` and the option `v`. -/
def short_names : List string :=
  ["ledger_cmd_b".toList, "ledger_cmd_p".toList, "ledger_cmd_r".toList, "opt_v".toList]

/-- A lookup environment for concrete inputs: no `format_string`, and
session formats `B`, `R` and `P`. -/
def plain_env : lookup_env :=
  { format_string := [], balance_format := ['B'], register_format := ['R'],
    print_format := ['P'] }

end lookup_defs

section driver_defs

/-- Result of a call that may throw: it returned, leaving the session in
state `s`, or it raised the error `e`, leaving the session in state `s`. -/
inductive outcome (σ ε : Type) where
  | returned (s : σ)
  | raised (e : ε) (s : σ)
  deriving DecidableEq

/-- Sequencing of two calls: an error raised by the first one propagates,
the second call is not made. -/
def outcome.bind {σ ε : Type} (o : outcome σ ε) (k : σ → outcome σ ε) : outcome σ ε :=
  match o with
  | .returned s => k s
  | .raised e s => .raised e s

/-- The session state an outcome leaves. -/
def outcome.state {σ ε : Type} : outcome σ ε → σ
  | .returned s => s
  | .raised _ s => s

/-- The error an outcome raised, if any. -/
def outcome.error {σ ε : Type} : outcome σ ε → Option ε
  | .returned _ => none
  | .raised e _ => some e

/-- An entry of the journal: the identifiers of its postings in declaration
order. -/
structure entry_t where
  xacts : List Nat
  deriving DecidableEq

/-- The posting iterators the drivers construct. -/
inductive xacts_walker where
  | session_xacts_iterator
  | entry_xacts_iterator (entry : entry_t)
  deriving DecidableEq

/-- The account iterators `accounts_report` constructs over
`*session.master`. -/
inductive accounts_walker where
  | basic_accounts_iterator
  | sorted_accounts_iterator (sort_string : string)
  deriving DecidableEq

/-- The object `item_predicate<account_t>(predicate, what_to_keep)`. -/
structure account_predicate (keep_details_t : Type) where
  predicate : string
  what_to_keep : keep_details_t
  deriving DecidableEq

/-- The members of `report_t` read by the drivers: those read by
`chain_xact_handlers` and `amount_expr`, together with the flag of the
`empty` option. -/
structure driver_report_t (keep_details_t session_t expr_t : Type)
    extends report_t keep_details_t session_t expr_t where
  amount_expr : expr_t
  /-- Modelled from the spec: the flag set by the `empty` option of §4.4,
  declared in `report.h`; no function of `report.cc` reads it. -/
  show_empty : Bool

/-- Modelled from the spec: the default value `true` of the parameter
`handle_individual_xacts` of `chain_xact_handlers`, declared in `chain.h`;
posting reports run the posting-stream path of spec §4.2. -/
def handle_individual_xacts_default : Bool := true

variable {σ ε β γ keep_details_t session_t expr_t value_t date_t : Type}

/-- The functions of other translation units called by the drivers, acting
on a session state `σ`: `pass_down_xacts`, `account_t::calculate_sums`,
`pass_down_accounts`, the three `session_t::clean_*` functions, and the
handler object `new set_account_value`. -/
structure driver_ops (σ ε β γ keep_details_t session_t expr_t value_t date_t : Type) where
  set_account_value : β
  pass_down_xacts :
    xact_handler β keep_details_t session_t expr_t value_t date_t → xacts_walker → σ →
      outcome σ ε
  calculate_sums : expr_t → driver_report_t keep_details_t session_t expr_t → σ → outcome σ ε
  pass_down_accounts : γ → accounts_walker → account_predicate keep_details_t → σ → outcome σ ε
  clean_xacts : σ → σ
  clean_xacts_entry : entry_t → σ → σ
  clean_accounts : σ → σ

/-- Embedding of `report_t::xacts_report` (`report.cc` lines 41-46). -/
def xacts_report (ops : driver_ops σ ε β γ keep_details_t session_t expr_t value_t date_t)
    (deps : deps_t value_t date_t)
    (report : driver_report_t keep_details_t session_t expr_t) (handler : β) (session : σ) :
    outcome σ ε :=
  let walker := xacts_walker.session_xacts_iterator
  (ops.pass_down_xacts
      (chain_xact_handlers deps report.toreport_t handler handle_individual_xacts_default)
      walker session).bind fun session =>
  .returned (ops.clean_xacts session)

/-- Embedding of `report_t::entry_report` (`report.cc` lines 48-53). -/
def entry_report (ops : driver_ops σ ε β γ keep_details_t session_t expr_t value_t date_t)
    (deps : deps_t value_t date_t)
    (report : driver_report_t keep_details_t session_t expr_t) (handler : β)
    (entry : entry_t) (session : σ) : outcome σ ε :=
  let walker := xacts_walker.entry_xacts_iterator entry
  (ops.pass_down_xacts
      (chain_xact_handlers deps report.toreport_t handler handle_individual_xacts_default)
      walker session).bind fun session =>
  .returned (ops.clean_xacts_entry entry session)

/-- Embedding of `report_t::sum_all_accounts` (`report.cc` lines 55-63). -/
def sum_all_accounts (ops : driver_ops σ ε β γ keep_details_t session_t expr_t value_t date_t)
    (deps : deps_t value_t date_t)
    (report : driver_report_t keep_details_t session_t expr_t) (session : σ) :
    outcome σ ε :=
  let walker := xacts_walker.session_xacts_iterator
  (ops.pass_down_xacts
      (chain_xact_handlers deps report.toreport_t ops.set_account_value false)
      walker session).bind fun session =>
  ops.calculate_sums report.amount_expr report session

/-- Embedding of `report_t::accounts_report` (`report.cc` lines 65-81). -/
def accounts_report (ops : driver_ops σ ε β γ keep_details_t session_t expr_t value_t date_t)
    (deps : deps_t value_t date_t)
    (report : driver_report_t keep_details_t session_t expr_t) (handler : γ) (session : σ) :
    outcome σ ε :=
  (sum_all_accounts ops deps report session).bind fun session =>
  (if report.sort_string.isEmpty then
    let walker := accounts_walker.basic_accounts_iterator
    ops.pass_down_accounts handler walker ⟨"total".toList, report.what_to_keep⟩ session
  else
    let walker := accounts_walker.sorted_accounts_iterator report.sort_string
    ops.pass_down_accounts handler walker ⟨"total".toList, report.what_to_keep⟩
      session).bind fun session =>
  .returned (ops.clean_accounts (ops.clean_xacts session))

/-- Modelled from the spec: the part of the session the clean-up functions
act on (spec §3 and §5 (ii)): the entries of the journal and the scratch
xdata attached to postings and to accounts, by identifier. -/
structure session_state (X A : Type) where
  entries : List entry_t
  xact_xdata : Nat → Option X
  account_xdata : Nat → Option A

/-- Modelled from the spec: `session.clean_xacts()` clears the xdata of
every posting. -/
def clean_xacts {X A : Type} (session : session_state X A) : session_state X A :=
  { session with xact_xdata := fun _ => none }

/-- Modelled from the spec: `session.clean_xacts(entry)` clears the xdata
of the postings of `entry`. -/
def clean_xacts_entry {X A : Type} (entry : entry_t) (session : session_state X A) :
    session_state X A :=
  { session with
    xact_xdata := fun id => if id ∈ entry.xacts then none else session.xact_xdata id }

/-- Modelled from the spec: `session.clean_accounts()` clears the xdata of
every account. -/
def clean_accounts {X A : Type} (session : session_state X A) : session_state X A :=
  { session with account_xdata := fun _ => none }

/-- The drivers' operations on a `session_state`: the clean-up functions
are the ones modelled from the spec, the passes down the chain and
`calculate_sums` are arbitrary. -/
def session_ops {X A : Type} (set_account_value : β)
    (pass_down_xacts :
      xact_handler β keep_details_t session_t expr_t value_t date_t → xacts_walker →
        session_state X A → outcome (session_state X A) ε)
    (calculate_sums : expr_t → driver_report_t keep_details_t session_t expr_t →
      session_state X A → outcome (session_state X A) ε)
    (pass_down_accounts : γ → accounts_walker → account_predicate keep_details_t →
      session_state X A → outcome (session_state X A) ε) :
    driver_ops (session_state X A) ε β γ keep_details_t session_t expr_t value_t date_t :=
  { set_account_value := set_account_value
    pass_down_xacts := pass_down_xacts
    calculate_sums := calculate_sums
    pass_down_accounts := pass_down_accounts
    clean_xacts := clean_xacts
    clean_xacts_entry := clean_xacts_entry
    clean_accounts := clean_accounts }

/-- A call of a driver to a function of another translation unit, with its
arguments. -/
inductive call_t (β γ keep_details_t session_t expr_t value_t date_t : Type) where
  | pass_down_xacts
      (handler : xact_handler β keep_details_t session_t expr_t value_t date_t)
      (walker : xacts_walker)
  | calculate_sums (amount_expr : expr_t)
      (report : driver_report_t keep_details_t session_t expr_t)
  | pass_down_accounts (handler : γ) (walker : accounts_walker)
      (predicate : account_predicate keep_details_t)
  | clean_xacts
  | clean_xacts_entry (entry : entry_t)
  | clean_accounts

/-- Operations that only record the calls made, in order; a pass or
`calculate_sums` raises the error `fails call` when that is `some`. -/
def recording_ops (set_account_value : β)
    (fails : call_t β γ keep_details_t session_t expr_t value_t date_t → Option ε) :
    driver_ops (List (call_t β γ keep_details_t session_t expr_t value_t date_t)) ε β γ
      keep_details_t session_t expr_t value_t date_t :=
  { set_account_value := set_account_value
    pass_down_xacts := fun handler walker trace =>
      match fails (.pass_down_xacts handler walker) with
      | some e => .raised e (trace ++ [.pass_down_xacts handler walker])
      | none => .returned (trace ++ [.pass_down_xacts handler walker])
    calculate_sums := fun amount_expr report trace =>
      match fails (.calculate_sums amount_expr report) with
      | some e => .raised e (trace ++ [.calculate_sums amount_expr report])
      | none => .returned (trace ++ [.calculate_sums amount_expr report])
    pass_down_accounts := fun handler walker predicate trace =>
      match fails (.pass_down_accounts handler walker predicate) with
      | some e => .raised e (trace ++ [.pass_down_accounts handler walker predicate])
      | none => .returned (trace ++ [.pass_down_accounts handler walker predicate])
    clean_xacts := fun trace => trace ++ [.clean_xacts]
    clean_xacts_entry := fun entry trace => trace ++ [.clean_xacts_entry entry]
    clean_accounts := fun trace => trace ++ [.clean_accounts] }

/-- The configuration `plain_report` as a driver configuration, with the
`empty` flag unset. -/
def plain_driver_report : driver_report_t Unit Unit Unit :=
  { toreport_t := plain_report, amount_expr := (), show_empty := false }

/-- A session for concrete inputs: one entry with the postings 0 and 1 and
no xdata. -/
def plain_session : session_state Nat Nat :=
  { entries := [⟨[0, 1]⟩], xact_xdata := fun _ => none, account_xdata := fun _ => none }

/-- A sample pass down a chain for concrete inputs: it leaves xdata on
every posting and on every account and returns. -/
def marking_pass {α ω : Type} (_handler : α) (_walker : ω) (session : session_state Nat Nat) :
    outcome (session_state Nat Nat) string :=
  .returned { session with xact_xdata := fun _ => some 1, account_xdata := fun _ => some 2 }

/-- A sample pass down a chain for concrete inputs: it leaves xdata on every
posting and then a stage raises an error. -/
def failing_pass {α ω : Type} (_handler : α) (_walker : ω) (session : session_state Nat Nat) :
    outcome (session_state Nat Nat) string :=
  .raised "error".toList { session with xact_xdata := fun _ => some 1 }

end driver_defs

section display_defs

/-- The members of `item_t` read by `display_date` (`item.h` is not part of
the sources at hand): the flag `use_effective_date` and the values returned
by the accessors `effective_date()` and `date()`. -/
structure item_t (date_t : Type) where
  use_effective_date : Bool
  effective_date : Option date_t
  date : date_t
  deriving DecidableEq

/-- The members of `report_t` read by `display_date`: those read by
`chain_xact_handlers`, together with `output_date_format`. -/
structure display_report_t (keep_details_t session_t expr_t format_t : Type)
    extends report_t keep_details_t session_t expr_t where
  output_date_format : format_t

/-- The part of a `call_scope_t` read by `display_date`: the report and the
item that `find_scope<report_t>(args)` and `find_scope<item_t>(args)` return
(`find_scope` is declared in `scope.h`, not part of the sources at hand). -/
structure call_scope_t (keep_details_t session_t expr_t format_t date_t : Type) where
  report : display_report_t keep_details_t session_t expr_t format_t
  item : item_t date_t

variable {keep_details_t session_t expr_t format_t value_t date_t : Type}

/-- Embedding of `display_date` (`report.cc` lines 156-166).  The functions
`format_date` and `string_value` are declared outside the sources at hand
and are parameters.  A `return` inside the `if` yields `some` value;
otherwise control reaches the final `return`. -/
def display_date (format_date : date_t → format_t → string)
    (string_value : string → value_t)
    (args : call_scope_t keep_details_t session_t expr_t format_t date_t) : value_t :=
  let report := args.report
  let item := args.item
  let early : Option value_t :=
    if item.use_effective_date then
      match item.effective_date with
      | some date => some (string_value (format_date date report.output_date_format))
      | none => none
    else none
  match early with
  | some v => v
  | none => string_value (format_date item.date report.output_date_format)

/-- A date formatter for concrete inputs: dates are day numbers, the result
is the format followed by the decimal day number. -/
def sample_format_date (date : Nat) (format : string) : string :=
  format ++ (toString date).toList

/-- A call scope for concrete inputs: the report with every option left
unset and the output date format `d`, and an item dated day 3 with the
effective date `effective_date`. -/
def plain_call_scope (use_effective_date : Bool) (effective_date : Option Nat) :
    call_scope_t Unit Unit Unit string Nat :=
  { report := { toreport_t := plain_report, output_date_format := ['d'] },
    item := { use_effective_date := use_effective_date,
              effective_date := effective_date, date := 3 } }

end display_defs

section flow_defs

variable {π keep_details_t session_t expr_t value_t date_t : Type}

/-- Modelled from the spec: what the postings are to the stages (spec §3 and
§4.1).  The value of a predicate on a posting (`eval`), the other postings
of the entry of a posting (`related_of`) and the stream a stage of a class
other than filter and related expansion forwards for the stream it receives
(`other`) are parameters. -/
structure stage_model (π keep_details_t session_t expr_t value_t date_t : Type) where
  eval : string → keep_details_t → π → Bool
  related_of : π → List π
  other : stage_t keep_details_t session_t expr_t value_t date_t → List π → List π

/-- Modelled from the spec: the stream of postings a stage forwards to its
downstream handler for the stream it receives (§4.1).  A filter drops the
postings on which its predicate is false (§4.2 steps 2, 6 and 15); the
related expansion replaces each posting with the other postings of its
entry and, under `show_all_related`, includes the posting itself (§4.2
step 13). -/
def forward (m : stage_model π keep_details_t session_t expr_t value_t date_t) :
    stage_t keep_details_t session_t expr_t value_t date_t → List π → List π
  | .filter_xacts predicate what_to_keep, xs => xs.filter (m.eval predicate what_to_keep)
  | .related_xacts show_all_related, xs =>
      xs.flatMap (fun p => (if show_all_related then [p] else []) ++ m.related_of p)
  | s, xs => m.other s xs

/-- Modelled from the spec: the stream that leaves the last of `stages` when
the first of them is fed `xs`; each stage forwards to its downstream
successor (§4.1). -/
def stream_after (m : stage_model π keep_details_t session_t expr_t value_t date_t)
    (stages : List (stage_t keep_details_t session_t expr_t value_t date_t))
    (xs : List π) : List π :=
  stages.foldl (fun ys s => forward m s ys) xs

/-- Modelled from the spec: the stream the running-total calculator
receives when the chain is fed `xs`, i.e. the stream that leaves the stages
upstream of the first `calc_xacts` stage. -/
def received_by_calc (m : stage_model π keep_details_t session_t expr_t value_t date_t)
    (stages : List (stage_t keep_details_t session_t expr_t value_t date_t))
    (xs : List π) : List π :=
  stream_after m (stages.takeWhile (fun s => decide (s.kind ≠ .calc_xacts))) xs

/-- The payee rewrite stage of step 16 (`chain.cc` lines 225-228). -/
def payee_stages (report : report_t keep_details_t session_t expr_t) :
    List (stage_t keep_details_t session_t expr_t value_t date_t) :=
  if report.comm_as_payee then [.set_comm_as_payee]
  else if report.code_as_payee then [.set_code_as_payee] else []

/-- The stages built between the running-total calculator and the primary
filter (`chain.cc` lines 67-178), in execution order: steps 14 to 12, then
steps 11 to 5, then the component stages of step 4. -/
def middle_stages (deps : deps_t value_t date_t)
    (report : report_t keep_details_t session_t expr_t) :
    List (stage_t keep_details_t session_t expr_t value_t date_t) :=
  ((if report.anonymize then [.anonymize_xacts] else []) ++
    ((if report.show_related then [.related_xacts report.show_all_related] else []) ++
    (if report.show_inverted then [.invert_xacts] else []))) ++
  (upper_stages deps report ++ component_stages report)

/-- A model for concrete inputs: the postings 0 and 1 make up one entry,
the predicate `p` holds of posting 0 only, every other predicate holds of
every posting, and a stage of another class forwards what it receives. -/
def sample_model : stage_model Nat Unit Unit Unit string (Option string) :=
  { eval := fun predicate _ p => if predicate = ['p'] then decide (p = 0) else true,
    related_of := fun p => if p = 0 then [1] else if p = 1 then [0] else [],
    other := fun _ xs => xs }

end flow_defs

section lemmas

variable {β keep_details_t session_t expr_t value_t date_t : Type}

theorem stages_stage (s : stage_t keep_details_t session_t expr_t value_t date_t)
    (h : xact_handler β keep_details_t session_t expr_t value_t date_t) :
    (xact_handler.stage s h).stages = s :: h.stages := rfl

theorem stages_base (b : β) :
    (xact_handler.base b :
      xact_handler β keep_details_t session_t expr_t value_t date_t).stages = [] := rfl

theorem stages_ite_stage (c : Prop) [Decidable c]
    (s : stage_t keep_details_t session_t expr_t value_t date_t)
    (h : xact_handler β keep_details_t session_t expr_t value_t date_t) :
    (if c then xact_handler.stage s h else h).stages
      = (if c then [s] else []) ++ h.stages := by
  split <;> rfl

theorem stages_ite_stage_stage (c : Prop) [Decidable c]
    (s t : stage_t keep_details_t session_t expr_t value_t date_t)
    (h : xact_handler β keep_details_t session_t expr_t value_t date_t) :
    (if c then xact_handler.stage s (xact_handler.stage t h) else h).stages
      = (if c then [s, t] else []) ++ h.stages := by
  split <;> rfl

theorem stages_ite_else_ite (c d : Prop) [Decidable c] [Decidable d]
    (s t : stage_t keep_details_t session_t expr_t value_t date_t)
    (h : xact_handler β keep_details_t session_t expr_t value_t date_t) :
    (if c then xact_handler.stage s h
      else if d then xact_handler.stage t h else h).stages
      = (if c then [s] else if d then [t] else []) ++ h.stages := by
  split
  · rfl
  · split <;> rfl

theorem stages_ite_then_ite (c d : Prop) [Decidable c] [Decidable d]
    (s t : stage_t keep_details_t session_t expr_t value_t date_t)
    (h : xact_handler β keep_details_t session_t expr_t value_t date_t) :
    (if c then (if d then xact_handler.stage s h else xact_handler.stage t h)
      else h).stages
      = (if c then (if d then [s] else [t]) else []) ++ h.stages := by
  split
  · split <;> rfl
  · rfl

theorem stages_foldl {ι : Type}
    (f : ι → stage_t keep_details_t session_t expr_t value_t date_t)
    (l : List ι) (h : xact_handler β keep_details_t session_t expr_t value_t date_t) :
    (l.foldl (fun handler i => xact_handler.stage (f i) handler) h).stages
      = l.reverse.map f ++ h.stages := by
  induction l generalizing h with
  | nil => rfl
  | cons a l ih => simp [List.foldl, ih, stages_stage]

theorem stages_chain_false (deps : deps_t value_t date_t)
    (report : report_t keep_details_t session_t expr_t) (base_handler : β) :
    (chain_xact_handlers deps report base_handler false).stages = tail_stages report := by
  unfold chain_xact_handlers
  simp -zeta only [Bool.false_eq_true, if_false]
  lift_lets
  intro h0 hb h12 h13 h14 h15 h16
  simp only [h16, stages_ite_else_ite]
  simp only [h15, stages_ite_stage]
  simp only [h14, stages_ite_stage]
  simp only [h13, stages_ite_stage]
  simp only [h12, stages_ite_stage]
  simp only [hb, h0, stages_base, List.append_nil, tail_stages]

theorem stages_chain_true (deps : deps_t value_t date_t)
    (report : report_t keep_details_t session_t expr_t) (base_handler : β) :
    (chain_xact_handlers deps report base_handler true).stages
      = tail_stages report ++
          (upper_stages deps report ++ (component_stages report ++ lower_stages report)) := by
  unfold chain_xact_handlers
  by_cases hd : report.descend_expr.isEmpty = true
  · simp -zeta only [hd, if_true, Bool.not_true, Bool.false_eq_true, if_false]
    lift_lets
    intro rc h0 h1 h2 h3 c0 c1 h5 h6 h7 h8 h9 h10a h10b h11a h11 hb h12 h13 h14 h15 h16
    simp only [h16, stages_ite_else_ite]
    simp only [h15, stages_ite_stage]
    simp only [h14, stages_ite_stage]
    simp only [h13, stages_ite_stage]
    simp only [h12, stages_ite_stage]
    simp only [hb]
    simp only [h11, h11a, stages_ite_stage_stage]
    simp only [h10b, stages_ite_else_ite]
    simp only [h10a, stages_ite_stage]
    simp only [h9, stages_ite_stage]
    simp only [h8, stages_ite_stage]
    simp only [h7, stages_ite_then_ite]
    simp only [h6, stages_ite_stage]
    simp only [h5, stages_ite_stage]
    simp only [h3, stages_stage]
    simp only [h2, stages_ite_stage]
    simp only [h1, stages_ite_stage]
    simp only [h0, stages_base, List.append_nil, tail_stages, upper_stages, component_stages, lower_stages,
      c1, c0, rc, hd, Bool.not_true, Bool.false_eq_true, if_false, List.append_assoc,
      List.nil_append, List.cons_append]
  · simp -zeta only [hd, if_true, Bool.not_false]
    lift_lets
    intro h0 h1 h2 h3 c0 c1 h5 h6 h7 h8 h9 h10a h10b h11a h11 hp hb h12 h13 h14 h16
    simp only [h16, stages_ite_else_ite]
    simp only [h14, stages_ite_stage]
    simp only [h13, stages_ite_stage]
    simp only [h12, stages_ite_stage]
    simp only [hb, stages_ite_stage]
    simp only [hp]
    simp only [h11, h11a, stages_ite_stage_stage]
    simp only [h10b, stages_ite_else_ite]
    simp only [h10a, stages_ite_stage]
    simp only [h9, stages_ite_stage]
    simp only [h8, stages_ite_stage]
    simp only [h7, stages_ite_then_ite]
    simp only [h6, stages_ite_stage]
    simp only [h5, stages_ite_stage, stages_foldl, List.reverse_reverse]
    simp only [h3, stages_stage]
    simp only [h2, stages_ite_stage]
    simp only [h1, stages_ite_stage]
    simp only [h0, stages_base, List.append_nil, tail_stages, upper_stages, component_stages, lower_stages,
      c1, c0, hd, Bool.not_false, if_true, List.append_assoc,
      List.nil_append, List.cons_append]

theorem terminal_ite_stage (c : Prop) [Decidable c]
    (s : stage_t keep_details_t session_t expr_t value_t date_t)
    (h : xact_handler β keep_details_t session_t expr_t value_t date_t) :
    (if c then xact_handler.stage s h else h).terminal = h.terminal := by
  split <;> rfl

theorem terminal_ite_stage_stage (c : Prop) [Decidable c]
    (s t : stage_t keep_details_t session_t expr_t value_t date_t)
    (h : xact_handler β keep_details_t session_t expr_t value_t date_t) :
    (if c then xact_handler.stage s (xact_handler.stage t h) else h).terminal
      = h.terminal := by
  split <;> rfl

theorem terminal_ite_else_ite (c d : Prop) [Decidable c] [Decidable d]
    (s t : stage_t keep_details_t session_t expr_t value_t date_t)
    (h : xact_handler β keep_details_t session_t expr_t value_t date_t) :
    (if c then xact_handler.stage s h
      else if d then xact_handler.stage t h else h).terminal = h.terminal := by
  split
  · rfl
  · split <;> rfl

theorem terminal_ite_then_ite (c d : Prop) [Decidable c] [Decidable d]
    (s t : stage_t keep_details_t session_t expr_t value_t date_t)
    (h : xact_handler β keep_details_t session_t expr_t value_t date_t) :
    (if c then (if d then xact_handler.stage s h else xact_handler.stage t h)
      else h).terminal = h.terminal := by
  split
  · split <;> rfl
  · rfl

theorem terminal_foldl {ι : Type}
    (f : ι → stage_t keep_details_t session_t expr_t value_t date_t)
    (l : List ι) (h : xact_handler β keep_details_t session_t expr_t value_t date_t) :
    (l.foldl (fun handler i => xact_handler.stage (f i) handler) h).terminal
      = h.terminal := by
  induction l generalizing h with
  | nil => rfl
  | cons a l ih => simp [List.foldl, ih, xact_handler.terminal]

theorem terminal_chain (deps : deps_t value_t date_t)
    (report : report_t keep_details_t session_t expr_t) (base_handler : β)
    (flag : Bool) :
    (chain_xact_handlers deps report base_handler flag).terminal = base_handler := by
  unfold chain_xact_handlers
  cases flag
  · simp -zeta only [Bool.false_eq_true, if_false]
    lift_lets
    intro h0 hb h12 h13 h14 h15 h16
    simp only [h16, terminal_ite_else_ite]
    simp only [h15, terminal_ite_stage]
    simp only [h14, terminal_ite_stage]
    simp only [h13, terminal_ite_stage]
    simp only [h12, terminal_ite_stage]
    simp only [hb, h0, xact_handler.terminal]
  · by_cases hd : report.descend_expr.isEmpty = true
    · simp -zeta only [hd, if_true, Bool.not_true, Bool.false_eq_true, if_false]
      lift_lets
      intro rc h0 h1 h2 h3 c0 c1 h5 h6 h7 h8 h9 h10a h10b h11a h11 hb h12 h13 h14 h15 h16
      simp only [h16, terminal_ite_else_ite]
      simp only [h15, terminal_ite_stage]
      simp only [h14, terminal_ite_stage]
      simp only [h13, terminal_ite_stage]
      simp only [h12, terminal_ite_stage]
      simp only [hb]
      simp only [h11, h11a, terminal_ite_stage_stage]
      simp only [h10b, terminal_ite_else_ite]
      simp only [h10a, terminal_ite_stage]
      simp only [h9, terminal_ite_stage]
      simp only [h8, terminal_ite_stage]
      simp only [h7, terminal_ite_then_ite]
      simp only [h6, terminal_ite_stage]
      simp only [h5, terminal_ite_stage]
      simp only [h3, xact_handler.terminal]
      simp only [h2, terminal_ite_stage]
      simp only [h1, terminal_ite_stage]
      simp only [h0, xact_handler.terminal]
    · simp -zeta only [hd, if_true, Bool.not_false]
      lift_lets
      intro h0 h1 h2 h3 c0 c1 h5 h6 h7 h8 h9 h10a h10b h11a h11 hp hb h12 h13 h14 h16
      simp only [h16, terminal_ite_else_ite]
      simp only [h14, terminal_ite_stage]
      simp only [h13, terminal_ite_stage]
      simp only [h12, terminal_ite_stage]
      simp only [hb, terminal_ite_stage]
      simp only [hp]
      simp only [h11, h11a, terminal_ite_stage_stage]
      simp only [h10b, terminal_ite_else_ite]
      simp only [h10a, terminal_ite_stage]
      simp only [h9, terminal_ite_stage]
      simp only [h8, terminal_ite_stage]
      simp only [h7, terminal_ite_then_ite]
      simp only [h6, terminal_ite_stage]
      simp only [h5, terminal_ite_stage, terminal_foldl]
      simp only [h3, xact_handler.terminal]
      simp only [h2, terminal_ite_stage]
      simp only [h1, terminal_ite_stage]
      simp only [h0, xact_handler.terminal]

theorem ordered_below_nil (report : report_t keep_details_t session_t expr_t) (n : Nat) :
    ordered_below report n
      ([] : List (stage_t keep_details_t session_t expr_t value_t date_t)) :=
  ⟨[], rfl, by simp, List.Pairwise.nil⟩

theorem ordered_below_append (report : report_t keep_details_t session_t expr_t)
    (m n : Nat) (l rest : List (stage_t keep_details_t session_t expr_t value_t date_t))
    (hmn : m ≤ n) (hl : ∀ s ∈ l, canonical_step report m s)
    (hrest : ordered_below report m rest) :
    ordered_below report n (l ++ rest) := by
  obtain ⟨tagged, h1, h2, h3⟩ := hrest
  refine ⟨l.map (fun s => (m, s)) ++ tagged, ?_, ?_, ?_⟩
  · simp [h1, Function.comp_def]
  · intro x hx
    rcases List.mem_append.mp hx with hx | hx
    · obtain ⟨s, hs, rfl⟩ := List.mem_map.mp hx
      exact ⟨hmn, hl s hs⟩
    · exact ⟨le_trans (h2 x hx).1 hmn, (h2 x hx).2⟩
  · rw [List.pairwise_append]
    refine ⟨?_, h3, ?_⟩
    · rw [List.pairwise_map]
      exact List.pairwise_of_forall (fun _ _ => le_refl m)
    · intro a ha b hb
      obtain ⟨s, _, rfl⟩ := List.mem_map.mp ha
      exact (h2 b hb).1

theorem wrap_stages_terminal
    (h : xact_handler β keep_details_t session_t expr_t value_t date_t) :
    h = h.stages.foldr xact_handler.stage (.base h.terminal) := by
  induction h with
  | base b => rfl
  | stage s h ih =>
    simp only [xact_handler.stages, xact_handler.terminal, List.foldr_cons]
    exact congrArg _ ih

set_option linter.unusedTactic false in
theorem stages_ordered (deps : deps_t value_t date_t)
    (report : report_t keep_details_t session_t expr_t) (base_handler : β)
    (flag : Bool) :
    ordered_below report 16 (chain_xact_handlers deps report base_handler flag).stages := by
  cases flag
  · rw [stages_chain_false, ← List.append_nil (tail_stages report)]
    simp only [tail_stages, List.append_assoc]
    refine ordered_below_append report 16 16 _ _ (by omega) ?_ ?_; rotate_left
    refine ordered_below_append report 15 16 _ _ (by omega) ?_ ?_; rotate_left
    refine ordered_below_append report 14 15 _ _ (by omega) ?_ ?_; rotate_left
    refine ordered_below_append report 13 14 _ _ (by omega) ?_ ?_; rotate_left
    refine ordered_below_append report 12 13 _ _ (by omega) ?_ ?_; rotate_left
    exact ordered_below_nil report 12
    all_goals
      intro s hs
      split_ifs at hs <;> simp at hs <;> simp [hs, canonical_step, stage_t.kind]
  · rw [stages_chain_true, ← List.append_nil (lower_stages report)]
    simp only [tail_stages, upper_stages, component_stages, lower_stages, List.append_assoc]
    refine ordered_below_append report 16 16 _ _ (by omega) ?_ ?_; rotate_left
    refine ordered_below_append report 15 16 _ _ (by omega) ?_ ?_; rotate_left
    refine ordered_below_append report 14 15 _ _ (by omega) ?_ ?_; rotate_left
    refine ordered_below_append report 13 14 _ _ (by omega) ?_ ?_; rotate_left
    refine ordered_below_append report 12 13 _ _ (by omega) ?_ ?_; rotate_left
    refine ordered_below_append report 11 12 _ _ (by omega) ?_ ?_; rotate_left
    refine ordered_below_append report 10 11 _ _ (by omega) ?_ ?_; rotate_left
    refine ordered_below_append report 10 10 _ _ (by omega) ?_ ?_; rotate_left
    refine ordered_below_append report 9 10 _ _ (by omega) ?_ ?_; rotate_left
    refine ordered_below_append report 8 9 _ _ (by omega) ?_ ?_; rotate_left
    refine ordered_below_append report 7 8 _ _ (by omega) ?_ ?_; rotate_left
    refine ordered_below_append report 6 7 _ _ (by omega) ?_ ?_; rotate_left
    refine ordered_below_append report 5 6 _ _ (by omega) ?_ ?_; rotate_left
    refine ordered_below_append report 4 5 _ _ (by omega) ?_ ?_; rotate_left
    refine ordered_below_append report 3 4 _ _ (by omega) ?_ ?_; rotate_left
    refine ordered_below_append report 2 3 _ _ (by omega) ?_ ?_; rotate_left
    refine ordered_below_append report 1 2 _ _ (by omega) ?_ ?_; rotate_left
    exact ordered_below_nil report 1
    all_goals
      intro s hs
      (try split_ifs at hs) <;> simp at hs <;>
        first
        | (simp [hs, canonical_step, stage_t.kind]; done)
        | (rcases hs with rfl | rfl <;> simp [canonical_step, stage_t.kind]; done)
        | (obtain ⟨a, _, rfl⟩ := hs; simp [canonical_step, stage_t.kind]; done)

theorem kind_ne_of_count_eq_zero
    (l : List (stage_t keep_details_t session_t expr_t value_t date_t)) (k : class_t)
    (h : (l.map stage_t.kind).count k = 0) : ∀ s ∈ l, s.kind ≠ k := by
  intro s hs hk
  have hm : k ∈ l.map stage_t.kind := List.mem_map.mpr ⟨s, hs, hk⟩
  exact (List.count_eq_zero.mp h) hm

end lemmas

section splitting

theorem indexOf_split (c : Char) (l : List Char) (h : c ∈ l) :
    c ∉ l.take (l.indexOf c) ∧
      l = l.take (l.indexOf c) ++ c :: l.drop (l.indexOf c + 1) := by
  induction l with
  | nil => simp at h
  | cons a l ih =>
    by_cases hac : a = c
    · subst hac
      simp [List.indexOf_cons_self]
    · have hc : c ∈ l := by
        rcases List.mem_cons.mp h with h1 | h1
        · exact absurd h1.symm hac
        · exact h1
      obtain ⟨h1, h2⟩ := ih hc
      rw [List.indexOf_cons_ne _ hac]
      constructor
      · simp only [List.take_succ_cons, List.mem_cons, not_or]
        exact ⟨fun e => hac e.symm, h1⟩
      · simp only [List.take_succ_cons, List.drop_succ_cons, List.cons_append]
        exact congrArg _ h2

theorem string_find_none (s : string) (c : Char) (beg : Nat)
    (h : string_find s c beg = none) : c ∉ s.drop beg := by
  unfold string_find at h
  intro hm
  have := List.indexOf_lt_length.mpr hm
  simp only [this, if_true] at h
  cases h

theorem string_find_some (s : string) (c : Char) (beg pos : Nat)
    (h : string_find s c beg = some pos) :
    c ∉ string_sub s beg (pos - beg) ∧
      s.drop beg = string_sub s beg (pos - beg) ++ c :: s.drop (pos + 1) := by
  unfold string_find at h
  simp only at h
  split at h
  · rename_i hlt
    simp only [Option.some.injEq] at h
    subst h
    have hm := List.indexOf_lt_length.mp hlt
    obtain ⟨h1, h2⟩ := indexOf_split c (s.drop beg) hm
    simp only [string_sub, Nat.add_sub_cancel_left]
    refine ⟨h1, ?_⟩
    have e : s.drop (beg + (s.drop beg).indexOf c + 1)
        = (s.drop beg).drop ((s.drop beg).indexOf c + 1) := by
      rw [List.drop_drop, Nat.add_assoc]
    rw [e]
    exact h2
  · cases h

theorem intercalate_cons_cons (sep a b : List Char) (l : List (List Char)) :
    sep.intercalate (a :: b :: l) = a ++ sep ++ sep.intercalate (b :: l) := by
  simp [List.intercalate, List.intersperse]

theorem split_descend_expr_spec (s : string) :
    ∀ (fuel beg : Nat) (acc : List string), (s.drop beg).length < fuel →
      ∃ segs : List string,
        split_descend_expr s fuel beg acc = acc ++ segs ∧
        segs.length = (s.drop beg).count ';' + 1 ∧
        (∀ seg ∈ segs, ';' ∉ seg) ∧
        [';'].intercalate segs = s.drop beg := by
  intro fuel
  induction fuel with
  | zero => intro beg acc h; omega
  | succ fuel ih =>
    intro beg acc hlen
    unfold split_descend_expr
    cases hf : string_find s ';' beg with
    | none =>
      have hn := string_find_none s ';' beg hf
      refine ⟨[s.drop beg], rfl, ?_, ?_, ?_⟩
      · simp [List.count_eq_zero_of_not_mem hn]
      · intro seg hseg
        simp only [List.mem_singleton] at hseg
        subst hseg
        exact hn
      · simp [List.intercalate]
    | some pos =>
      obtain ⟨h1, h2⟩ := string_find_some s ';' beg pos hf
      have hlen2 : (s.drop (pos + 1)).length < fuel := by
        have := congrArg List.length h2
        simp only [List.length_append, List.length_cons] at this
        omega
      obtain ⟨segs, e1, e2, e3, e4⟩ :=
        ih (pos + 1) (acc ++ [string_sub s beg (pos - beg)]) hlen2
      refine ⟨string_sub s beg (pos - beg) :: segs, ?_, ?_, ?_, ?_⟩
      · simp only [e1, List.append_assoc, List.singleton_append]
      · rw [h2]
        simp only [List.length_cons, e2, List.count_append, List.count_cons_self,
          List.count_eq_zero_of_not_mem h1]
        omega
      · intro seg hseg
        rcases List.mem_cons.mp hseg with h | h
        · subst h; exact h1
        · exact e3 seg h
      · cases segs with
        | nil => simp at e2
        | cons b l =>
          rw [intercalate_cons_cons, e4, h2]
          simp

end splitting

section lookup_lemmas

theorem strcmp_eq_zero (p q : string) : strcmp p q = 0 ↔ p = q := by
  unfold strcmp
  split <;> simp_all

theorem strcmp_ne_zero (p q : string) : strcmp p q ≠ 0 ↔ p ≠ q := by
  rw [Ne, strcmp_eq_zero]

theorem strncmp_eq_zero (p q : string) (n : Nat) :
    strncmp p q n = 0 ↔ p.take n = q.take n := by
  unfold strncmp
  exact strcmp_eq_zero _ _

theorem nul_not_mem_c_str (name : string) : NUL ∉ c_str name := by
  intro h
  have := List.mem_takeWhile_imp h
  simp at this

theorem c_str_eq_self (name : string) (h : NUL ∉ name) : c_str name = name := by
  unfold c_str
  rw [List.takeWhile_eq_self_iff]
  intro c hc
  simp only [ne_eq, decide_eq_true_eq]
  intro e
  exact h (e ▸ hc)

theorem c_str_append (pre rest : string) (h : NUL ∉ pre) :
    c_str (pre ++ rest) = pre ++ c_str rest := by
  induction pre with
  | nil => rfl
  | cons a l ih =>
    have ha : a ≠ NUL := fun e => h (e ▸ List.mem_cons_self _ _)
    have hl : NUL ∉ l := fun e => h (List.mem_cons_of_mem _ e)
    simp only [c_str, List.cons_append, List.takeWhile_cons, ne_eq, ha, not_false_eq_true,
      decide_True, if_true, List.cons.injEq, true_and]
    exact ih hl

theorem nul_not_mem_drop (p : string) (n : Nat) (h : NUL ∉ p) : NUL ∉ p.drop n :=
  fun hm => h (List.mem_of_mem_drop hm)

theorem eq_singleton_of_deref (p : string) (c : Char) (hp : NUL ∉ p)
    (h0 : deref p 0 = c) (hc : c ≠ NUL) (h1 : deref p 1 = NUL) : p = [c] := by
  rcases p with _ | ⟨a, rest⟩
  · simp [deref] at h0
    exact absurd h0.symm hc
  · rcases rest with _ | ⟨b, rest⟩
    · simp [deref] at h0
      rw [h0]
    · simp [deref] at h1
      exact absurd (by simp [h1]) hp

end lookup_lemmas

section lookup_lemmas2

theorem lookup_cmd_some (env : lookup_env) (q : string) (hq : NUL ∉ q) (f : functor_t)
    (h : lookup_cmd env q = some f) :
    q ∈ spec_cmd_names.map String.toList ++ [['b'], ['p'], ['r']] := by
  unfold lookup_cmd at h
  simp only [strcmp_eq_zero] at h
  split_ifs at h
  all_goals first
    | (cases h; done)
    | (rcases ‹_ ∨ _› with h1 | h1 | h1
       · have h2 := eq_singleton_of_deref q _ hq ‹deref q 0 = _› (by decide) h1
         subst h2
         decide
       all_goals (subst h1; decide))
    | (rcases ‹_ ∨ _› with h1 | h1
       · have h2 := eq_singleton_of_deref q _ hq ‹deref q 0 = _› (by decide) h1
         subst h2
         decide
       all_goals (subst h1; decide))
    | (subst_vars; decide)

theorem lookup_cmd_of_mem (env : lookup_env) (q : string)
    (h : q ∈ spec_cmd_names.map String.toList ++ [['b'], ['p'], ['r']]) :
    ∃ handler method, lookup_cmd env q = some (.reporter handler method) := by
  simp only [spec_cmd_names, List.map_cons, List.map_nil, List.cons_append, List.nil_append,
    List.mem_cons, List.mem_singleton, List.not_mem_nil, or_false] at h
  rcases h with h | h | h | h | h | h | h | h | h <;> subst h <;> exact ⟨_, _, rfl⟩

end lookup_lemmas2

section lookup_lemmas3

theorem lookup_precmd_some (q : string) (f : functor_t) (h : lookup_precmd q = some f) :
    q ∈ spec_precmd_names.map String.toList := by
  unfold lookup_precmd at h
  simp only [strcmp_eq_zero] at h
  split_ifs at h
  all_goals first
    | (cases h; done)
    | (subst_vars; decide)

theorem lookup_precmd_of_mem (q : string) (h : q ∈ spec_precmd_names.map String.toList) :
    ∃ f, lookup_precmd q = some (.named f) := by
  simp only [spec_precmd_names, List.map_cons, List.map_nil,
    List.mem_cons, List.mem_singleton, List.not_mem_nil, or_false] at h
  rcases h with h | h | h | h | h <;> subst h <;> exact ⟨_, rfl⟩

set_option maxRecDepth 100000 in
theorem lookup_opt_table :
    ∀ row ∈ spec_option_table, lookup_opt row.1.toList = some (.named row.2) := by
  decide

end lookup_lemmas3

section lookup_lemmas4

theorem ite_some_cases {α : Type} (c : Prop) [Decidable c] (a b : Option α) (f : α)
    (h : (if c then a else b) = some f) : (c ∧ a = some f) ∨ (¬c ∧ b = some f) := by
  split at h
  · exact Or.inl ⟨‹c›, h⟩
  · exact Or.inr ⟨‹¬c›, h⟩

set_option maxRecDepth 100000 in
set_option maxHeartbeats 4000000 in
theorem lookup_opt_some (q : string) (hq : NUL ∉ q) (f : functor_t)
    (h : lookup_opt q = some f) :
    q ∈ (spec_option_table.map fun row => row.1.toList) ++ ["comm-as-payee".toList, ['v']] ∨
      (deref q 0 = 'x' ∧ q ≠ ['x']) := by
  unfold lookup_opt at h
  repeat
    obtain ⟨hc, h⟩ | ⟨-, h⟩ := ite_some_cases _ _ _ _ h
    · have hs := eq_singleton_of_deref q _ hq hc (by decide)
      try simp only [strcmp_eq_zero, strcmp_ne_zero] at h
      split_ifs at h
      all_goals first
        | (cases h; done)
        | (rename_i hpos
           first
             | (subst hpos; decide)
             | (right; exact ⟨hc, hpos⟩)
             | (have h2 := hs hpos
                subst h2
                decide)
             | (rcases hpos with h1 | h1 <;> first
                 | (subst h1; decide)
                 | (have h2 := hs h1
                    subst h2
                    decide)))
  cases h

end lookup_lemmas4

section lookup_lemmas5

theorem lookup_of_found_l (env : lookup_env) (name : string)
    (h0 : deref (c_str name) 0 = 'l') :
    lookup env name =
      match (if strncmp (c_str name) "ledger_cmd_".toList 11 = 0 then
              lookup_cmd env ((c_str name).drop 11)
            else if strncmp (c_str name) "ledger_precmd_".toList 14 = 0 then
              lookup_precmd ((c_str name).drop 14)
            else none) with
      | some f => .functor f
      | none => .session_lookup name := by
  unfold lookup
  simp only [h0]
  rfl

theorem lookup_of_found_o (env : lookup_env) (name : string)
    (h0 : deref (c_str name) 0 = 'o') :
    lookup env name =
      match (if strncmp (c_str name) "opt_".toList 4 = 0 then
              lookup_opt ((c_str name).drop 4)
            else none) with
      | some f => .functor f
      | none => .session_lookup name := by
  unfold lookup
  simp only [h0]
  rfl

theorem lookup_under_cmd (env : lookup_env) (n : string) :
    lookup env ("ledger_cmd_".toList ++ n) =
      match lookup_cmd env (c_str n) with
      | some f => .functor f
      | none => .session_lookup ("ledger_cmd_".toList ++ n) := by
  have hp : c_str ("ledger_cmd_".toList ++ n) = "ledger_cmd_".toList ++ c_str n :=
    c_str_append _ _ (by decide)
  rw [lookup_of_found_l env _ (by rw [hp]; rfl), hp]
  rfl

theorem lookup_under_precmd (env : lookup_env) (n : string) :
    lookup env ("ledger_precmd_".toList ++ n) =
      match lookup_precmd (c_str n) with
      | some f => .functor f
      | none => .session_lookup ("ledger_precmd_".toList ++ n) := by
  have hp : c_str ("ledger_precmd_".toList ++ n) = "ledger_precmd_".toList ++ c_str n :=
    c_str_append _ _ (by decide)
  rw [lookup_of_found_l env _ (by rw [hp]; rfl), hp]
  rfl

theorem lookup_under_opt (env : lookup_env) (n : string) :
    lookup env ("opt_".toList ++ n) =
      match lookup_opt (c_str n) with
      | some f => .functor f
      | none => .session_lookup ("opt_".toList ++ n) := by
  have hp : c_str ("opt_".toList ++ n) = "opt_".toList ++ c_str n :=
    c_str_append _ _ (by decide)
  rw [lookup_of_found_o env _ (by rw [hp]; rfl), hp]
  rfl

end lookup_lemmas5

section lookup_lemmas6

theorem mem_names_of_cmd (q : string)
    (h : q ∈ spec_cmd_names.map String.toList ++ [['b'], ['p'], ['r']]) :
    "ledger_cmd_".toList ++ q ∈ spec_names ++ short_names := by
  simp only [spec_cmd_names, List.map_cons, List.map_nil, List.cons_append, List.nil_append,
    List.mem_cons, List.mem_singleton, List.not_mem_nil, or_false] at h
  rcases h with h | h | h | h | h | h | h | h | h <;> subst h <;> decide

theorem mem_names_of_precmd (q : string) (h : q ∈ spec_precmd_names.map String.toList) :
    "ledger_precmd_".toList ++ q ∈ spec_names ++ short_names := by
  simp only [spec_precmd_names, List.map_cons, List.map_nil,
    List.mem_cons, List.mem_singleton, List.not_mem_nil, or_false] at h
  rcases h with h | h | h | h | h <;> subst h <;> decide

set_option maxHeartbeats 4000000 in
theorem mem_names_of_opt (q : string)
    (h : q ∈ (spec_option_table.map fun row => row.1.toList) ++
      ["comm-as-payee".toList, ['v']]) :
    "opt_".toList ++ q ∈ spec_names ++ short_names := by
  rcases List.mem_append.mp h with h | h
  · obtain ⟨row, hrow, rfl⟩ := List.mem_map.mp h
    apply List.mem_append_left
    unfold spec_names
    apply List.mem_append_right
    exact List.mem_map.mpr ⟨row, List.mem_append_left _ hrow, rfl⟩
  · simp only [List.mem_cons, List.mem_singleton, List.not_mem_nil, or_false] at h
    rcases h with h | h <;> subst h <;> decide

set_option maxHeartbeats 4000000 in
theorem lookup_functor_names (env : lookup_env) (name : string) (f : functor_t)
    (h : lookup env name = .functor f) :
    c_str name ∈ spec_names ++ short_names ∨
      (c_str name).take 5 = "opt_x".toList := by
  have hp := nul_not_mem_c_str name
  unfold lookup at h
  simp only [strcmp_eq_zero, strncmp_eq_zero] at h
  split at h
  · rename_i g hfound
    clear h
    split_ifs at hfound
    all_goals first
      | (cases hfound; done)
      | (rename_i hpos
         left
         rw [hpos]
         decide)
      | (rename_i hpos
         have hq := lookup_cmd_some env _ (nul_not_mem_drop _ 11 hp) g hfound
         have := mem_names_of_cmd _ hq
         rw [← List.take_append_drop 11 (c_str name), hpos]
         exact Or.inl this)
      | (rename_i hpos
         have hq := lookup_precmd_some _ g hfound
         have := mem_names_of_precmd _ hq
         rw [← List.take_append_drop 14 (c_str name), hpos]
         exact Or.inl this)
      | (rename_i hpos
         rcases lookup_opt_some _ (nul_not_mem_drop _ 4 hp) g hfound with hq | ⟨hx, -⟩
         · have := mem_names_of_opt _ hq
           rw [← List.take_append_drop 4 (c_str name), hpos]
           exact Or.inl this
         · right
           have hq0 : (c_str name).drop 4 ≠ [] := by
             intro e
             rw [e] at hx
             exact absurd hx (by decide)
           obtain ⟨c, rest, hcr⟩ := List.exists_cons_of_ne_nil hq0
           rw [hcr] at hx
           have hc : c = 'x' := hx
           rw [← List.take_append_drop 4 (c_str name), hpos, hcr, hc]
           rfl)
  · cases h

theorem lookup_functor_or_session (env : lookup_env) (name : string) :
    (∃ f, lookup env name = .functor f) ∨ lookup env name = .session_lookup name := by
  unfold lookup
  simp only
  split
  · exact Or.inl ⟨_, rfl⟩
  · exact Or.inr rfl

end lookup_lemmas6

section lookup_lemmas7

theorem c_str_cons_x (s : string) : c_str ('x' :: s) = 'x' :: c_str s := by
  unfold c_str
  rw [List.takeWhile_cons_of_pos (by decide)]

set_option maxRecDepth 100000 in
set_option maxHeartbeats 4000000 in
theorem lookup_opt_cons_x (t : string) :
    lookup_opt ('x' :: t) =
      if t ≠ [] then some (.named .option_comm_as_payee) else none := by
  have h0 : deref ('x' :: t) 0 = 'x' := rfl
  unfold lookup_opt
  simp only [h0, strcmp_ne_zero]
  simp

end lookup_lemmas7

section flow_lemmas

variable {π β keep_details_t session_t expr_t value_t date_t : Type}

theorem stream_after_append
    (m : stage_model π keep_details_t session_t expr_t value_t date_t)
    (l₁ l₂ : List (stage_t keep_details_t session_t expr_t value_t date_t)) (xs : List π) :
    stream_after m (l₁ ++ l₂) xs = stream_after m l₂ (stream_after m l₁ xs) := by
  unfold stream_after
  rw [List.foldl_append]

theorem stream_after_cons
    (m : stage_model π keep_details_t session_t expr_t value_t date_t)
    (s : stage_t keep_details_t session_t expr_t value_t date_t)
    (l : List (stage_t keep_details_t session_t expr_t value_t date_t)) (xs : List π) :
    stream_after m (s :: l) xs = stream_after m l (forward m s xs) := rfl

theorem stream_after_nil
    (m : stage_model π keep_details_t session_t expr_t value_t date_t) (xs : List π) :
    stream_after m [] xs = xs := rfl

theorem stream_after_subset
    (m : stage_model π keep_details_t session_t expr_t value_t date_t)
    (l : List (stage_t keep_details_t session_t expr_t value_t date_t))
    (h : ∀ s ∈ l, ∀ ys : List π, ∀ p ∈ forward m s ys, p ∈ ys) :
    ∀ xs : List π, ∀ p ∈ stream_after m l xs, p ∈ xs := by
  induction l with
  | nil => intro xs p hp; exact hp
  | cons s l ih =>
    intro xs p hp
    rw [stream_after_cons] at hp
    exact h s (List.mem_cons_self _ _) xs p
      (ih (fun t ht => h t (List.mem_cons_of_mem _ ht)) _ p hp)

theorem takeWhile_append_cons_of_neg {α : Type} (q : α → Bool) (l₁ l₂ : List α) (c : α)
    (h₁ : ∀ a ∈ l₁, q a = true) (hc : q c = false) :
    (l₁ ++ c :: l₂).takeWhile q = l₁ := by
  induction l₁ with
  | nil => simp [List.takeWhile_cons, hc]
  | cons a l ih =>
    rw [List.cons_append, List.takeWhile_cons, h₁ a (List.mem_cons_self _ _)]
    simp only [if_true]
    rw [ih (fun b hb => h₁ b (List.mem_cons_of_mem _ hb))]

theorem payee_stages_kind (report : report_t keep_details_t session_t expr_t) :
    ∀ s ∈ (payee_stages report : List (stage_t keep_details_t session_t expr_t value_t date_t)),
      s.kind ≠ .calc_xacts ∧ s.kind ≠ .filter_xacts := by
  intro s hs
  unfold payee_stages at hs
  split_ifs at hs <;> simp at hs <;> subst hs <;> simp [stage_t.kind]

theorem middle_stages_kind (deps : deps_t value_t date_t)
    (report : report_t keep_details_t session_t expr_t) :
    ∀ s ∈ middle_stages deps report, s.kind ≠ .calc_xacts := by
  apply kind_ne_of_count_eq_zero
  simp only [middle_stages, upper_stages, component_stages, List.map_append, List.count_append,
    apply_ite (List.map stage_t.kind), apply_ite (List.count class_t.calc_xacts),
    List.map_cons, List.map_nil, stage_t.kind, List.map_map]
  simp [Function.comp_def, stage_t.kind, List.count_replicate]

theorem stages_chain_segments (deps : deps_t value_t date_t)
    (report : report_t keep_details_t session_t expr_t) (base_handler : β) :
    (chain_xact_handlers deps report base_handler true).stages
      = (payee_stages report ++
          ((if !report.predicate.isEmpty then
              [.filter_xacts report.predicate report.what_to_keep] else []) ++
            middle_stages deps report)) ++
        .calc_xacts ::
          ((if !report.display_predicate.isEmpty then
              [.filter_xacts report.display_predicate report.what_to_keep] else []) ++
            (if report.head_entries ≠ 0 ∨ report.tail_entries ≠ 0 then
              [.truncate_entries report.head_entries report.tail_entries] else [])) := by
  rw [stages_chain_true]
  simp only [tail_stages, payee_stages, middle_stages, lower_stages, List.append_assoc,
    List.singleton_append]

theorem received_by_calc_chain
    (m : stage_model π keep_details_t session_t expr_t value_t date_t)
    (deps : deps_t value_t date_t)
    (report : report_t keep_details_t session_t expr_t) (base_handler : β) (xs : List π) :
    received_by_calc m (chain_xact_handlers deps report base_handler true).stages xs
      = stream_after m (middle_stages deps report)
          (stream_after m
            (if !report.predicate.isEmpty then
              [.filter_xacts report.predicate report.what_to_keep] else [])
            (stream_after m (payee_stages report) xs)) := by
  unfold received_by_calc
  rw [stages_chain_segments, takeWhile_append_cons_of_neg, stream_after_append,
    stream_after_append]
  · intro s hs
    have hk : s.kind ≠ .calc_xacts := by
      rcases List.mem_append.mp hs with h | h
      · exact (payee_stages_kind report s h).1
      · rcases List.mem_append.mp h with h | h
        · split_ifs at h
          · simp at h
            subst h
            simp [stage_t.kind]
          · simp at h
        · exact middle_stages_kind deps report s h
    simpa using hk
  · simp [stage_t.kind]

end flow_lemmas

section claims

variable {β keep_details_t session_t expr_t value_t date_t : Type}

/-- C1. For every configuration, on both paths, the stages of the chain
returned by `chain_xact_handlers` can be numbered with the steps 1 to 16 of
the canonical order so that every stage is a stage its step builds from the
configuration and a stage of a higher step is always upstream of (at an
earlier position than) a stage of a lower step; the chain is these stages
wrapped around the supplied base handler, which is its innermost element and
occurs once. -/
theorem chain_respects_canonical_order (deps : deps_t value_t date_t)
    (report : report_t keep_details_t session_t expr_t) (base_handler : β)
    (handle_individual_xacts : Bool) :
    (∃ tagged : List (Nat × stage_t keep_details_t session_t expr_t value_t date_t),
      tagged.map Prod.snd
        = (chain_xact_handlers deps report base_handler handle_individual_xacts).stages ∧
      (∀ x ∈ tagged, 1 ≤ x.1 ∧ x.1 ≤ 16 ∧ canonical_step report x.1 x.2) ∧
      (∀ (p q : Nat) (x y : Nat × stage_t keep_details_t session_t expr_t value_t date_t),
        tagged[p]? = some x → tagged[q]? = some y → x.1 < y.1 → q < p)) ∧
    chain_xact_handlers deps report base_handler handle_individual_xacts
      = (chain_xact_handlers deps report base_handler handle_individual_xacts).stages.foldr
          xact_handler.stage (.base base_handler) := by
  constructor
  · obtain ⟨tagged, h1, h2, h3⟩ :=
      stages_ordered deps report base_handler handle_individual_xacts
    refine ⟨tagged, h1, ?_, ?_⟩
    · intro x hx
      refine ⟨?_, (h2 x hx).1, (h2 x hx).2⟩
      have hc := (h2 x hx).2
      by_contra h0
      have : x.1 = 0 := by omega
      rw [this] at hc
      exact hc
    · intro p q x y hp hq hlt
      by_contra hle
      have hpq : p ≤ q := by omega
      rcases Nat.lt_or_eq_of_le hpq with hpq | hpq
      · obtain ⟨hp1, hp2⟩ := List.getElem?_eq_some.mp hp
        obtain ⟨hq1, hq2⟩ := List.getElem?_eq_some.mp hq
        have := List.pairwise_iff_getElem.mp h3 p q hp1 hq1 hpq
        rw [hp2, hq2] at this
        omega
      · subst hpq
        rw [hp] at hq
        cases hq
        omega
  · have h := wrap_stages_terminal
      (chain_xact_handlers deps report base_handler handle_individual_xacts)
    rw [terminal_chain] at h
    exact h

/-- C2, counterexample. With `predicate = "p"` and `show_related` set the
chain is primary filter, related expansion, calculator.  In the sample
model posting 0 passes `p`, its entry's other posting 1 does not; fed the
postings 0 and 1, the filter forwards posting 0, the related expansion
replaces it with posting 1, and the calculator receives posting 1, which
did not pass the primary predicate. -/
theorem calc_receives_unfiltered_posting :
    (chain_xact_handlers plain_deps
        { plain_report with predicate := ['p'], show_related := true } () true).stages
      = [.filter_xacts ['p'] (), .related_xacts false, .calc_xacts] ∧
    received_by_calc sample_model
        (chain_xact_handlers plain_deps
          { plain_report with predicate := ['p'], show_related := true } () true).stages
        [0, 1] = [1] ∧
    sample_model.eval ['p'] () 1 = false := by
  decide

/-- C2, amended. On the posting path the chain is: the payee rewrite stage
if any, the primary-predicate filter when `predicate` is non-empty, the
stages of steps 14 to 4, the running-total calculator, the display-predicate
filter when `display_predicate` is non-empty, the truncate stage if any; no
other calculator, and no filter in front of the primary one.  The
calculator receives what the stages between the primary filter and it
forward of the postings that passed the primary filter: when each of these
stages forwards only postings it received, the calculator only receives
postings that passed the primary predicate.  Everything downstream of the
calculator, the display filter included, works on the stream the calculator
forwards, and what the calculator receives does not depend on
`display_predicate`. -/
theorem predicate_calc_display_flow {π : Type} (deps : deps_t value_t date_t)
    (report : report_t keep_details_t session_t expr_t) (base_handler : β)
    (m : stage_model π keep_details_t session_t expr_t value_t date_t) (xs : List π) :
    ((chain_xact_handlers deps report base_handler true).stages
      = (payee_stages report ++
          ((if !report.predicate.isEmpty then
              [.filter_xacts report.predicate report.what_to_keep] else []) ++
            middle_stages deps report)) ++
        .calc_xacts ::
          ((if !report.display_predicate.isEmpty then
              [.filter_xacts report.display_predicate report.what_to_keep] else []) ++
            (if report.head_entries ≠ 0 ∨ report.tail_entries ≠ 0 then
              [.truncate_entries report.head_entries report.tail_entries] else []))) ∧
    (∀ s ∈ (payee_stages report :
        List (stage_t keep_details_t session_t expr_t value_t date_t)),
      s.kind ≠ .calc_xacts ∧ s.kind ≠ .filter_xacts) ∧
    (∀ s ∈ middle_stages deps report, s.kind ≠ .calc_xacts) ∧
    (received_by_calc m (chain_xact_handlers deps report base_handler true).stages xs
      = stream_after m (middle_stages deps report)
          (if report.predicate.isEmpty then stream_after m (payee_stages report) xs
            else (stream_after m (payee_stages report) xs).filter
              (m.eval report.predicate report.what_to_keep))) ∧
    (report.predicate ≠ [] →
      (∀ s ∈ middle_stages deps report, ∀ ys : List π, ∀ p ∈ forward m s ys, p ∈ ys) →
      ∀ p ∈ received_by_calc m
          (chain_xact_handlers deps report base_handler true).stages xs,
        m.eval report.predicate report.what_to_keep p = true) ∧
    (stream_after m (chain_xact_handlers deps report base_handler true).stages xs
      = stream_after m
          ((if !report.display_predicate.isEmpty then
              [.filter_xacts report.display_predicate report.what_to_keep] else []) ++
            (if report.head_entries ≠ 0 ∨ report.tail_entries ≠ 0 then
              [.truncate_entries report.head_entries report.tail_entries] else []))
          (forward m .calc_xacts
            (received_by_calc m
              (chain_xact_handlers deps report base_handler true).stages xs))) ∧
    (∀ d : string,
      received_by_calc m
          (chain_xact_handlers deps { report with display_predicate := d }
            base_handler true).stages xs
        = received_by_calc m
            (chain_xact_handlers deps report base_handler true).stages xs) := by
  have hrecv := received_by_calc_chain m deps report base_handler xs
  refine ⟨stages_chain_segments deps report base_handler, payee_stages_kind report,
    middle_stages_kind deps report, ?_, ?_, ?_, ?_⟩
  · rw [hrecv]
    by_cases hp : report.predicate = []
    · simp [hp, stream_after_nil]
    · simp [hp, stream_after_cons, stream_after_nil, forward]
  · intro hp hsub p hmem
    rw [hrecv] at hmem
    have h1 := stream_after_subset m (middle_stages deps report) hsub _ p hmem
    have hne : (!report.predicate.isEmpty) = true := by
      simp [List.isEmpty_iff, hp]
    simp only [if_pos hne, stream_after_cons, stream_after_nil, forward] at h1
    exact (List.mem_filter.mp h1).2
  · rw [hrecv, stages_chain_segments, stream_after_append, stream_after_append,
      stream_after_append, stream_after_cons]
  · intro d
    rw [hrecv, received_by_calc_chain]
    rfl

/-- C2, amended, at a concrete input: with `predicate = "p"` and
`secondary_predicate = "q"` the only stage between the primary filter and
the calculator is the secondary filter, which forwards only postings it
received; fed the postings 0 and 1 of the sample model, the calculator
receives posting 0, which passes `p`. -/
theorem predicate_calc_display_flow_witness :
    middle_stages plain_deps
        { plain_report with predicate := ['p'], secondary_predicate := ['q'] }
      = [.filter_xacts ['q'] ()] ∧
    received_by_calc sample_model
        (chain_xact_handlers plain_deps
          { plain_report with predicate := ['p'], secondary_predicate := ['q'] }
          () true).stages [0, 1] = [0] ∧
    sample_model.eval ['p'] () 0 = true :=
  ⟨by decide, by decide,
    (predicate_calc_display_flow plain_deps
        { plain_report with predicate := ['p'], secondary_predicate := ['q'] } ()
        sample_model [0, 1]).2.2.2.2.1
      (by decide)
      (by
        intro s hs ys p hp
        have hs2 : s = .filter_xacts ['q'] () := by
          have hm : middle_stages plain_deps
              { plain_report with predicate := ['p'], secondary_predicate := ['q'] }
              = [.filter_xacts ['q'] ()] := by decide
          rw [hm] at hs
          exact List.mem_singleton.mp hs
        subst hs2
        exact (List.mem_filter.mp hp).1)
      0 (by decide)⟩

/-- C3. On the posting path the assembled chain holds exactly one
`calc_xacts` stage, whatever the option values. -/
theorem calc_xacts_exactly_once (deps : deps_t value_t date_t)
    (report : report_t keep_details_t session_t expr_t) (base_handler : β) :
    ((chain_xact_handlers deps report base_handler true).stages.map stage_t.kind).count
      .calc_xacts = 1 := by
  rw [stages_chain_true]
  simp only [tail_stages, upper_stages, component_stages, lower_stages, List.map_append, List.count_append,
    apply_ite (List.map stage_t.kind), apply_ite (List.count class_t.calc_xacts),
    List.map_cons, List.map_nil, stage_t.kind, List.map_map]
  simp [Function.comp_def, stage_t.kind, List.count_replicate]

/-- C4, counterexample. With `show_subtotal` and `days_of_the_week` both
set the posting-path chain holds a `dow_xacts` stage and a `subtotal_xacts`
stage: two group aggregators. -/
theorem group_aggregators_not_exclusive :
    (chain_xact_handlers plain_deps
        { plain_report with show_subtotal := true, days_of_the_week := true }
        () true).stages
      = [.dow_xacts false, .subtotal_xacts false, .calc_xacts] ∧
    ¬ (((chain_xact_handlers plain_deps
        { plain_report with show_subtotal := true, days_of_the_week := true }
        () true).stages.map stage_t.kind).filter
          (fun k => decide (k ∈ [class_t.subtotal_xacts, .dow_xacts, .by_payee_xacts]))).length
        ≤ 1 := by
  decide

/-- C4, amended. For every configuration and on both paths the chain holds
at most one stage among `dow_xacts` and `by_payee_xacts`, and at most one
`subtotal_xacts` stage. -/
theorem dow_by_payee_exclusive (deps : deps_t value_t date_t)
    (report : report_t keep_details_t session_t expr_t) (base_handler : β)
    (handle_individual_xacts : Bool) :
    ((chain_xact_handlers deps report base_handler handle_individual_xacts).stages.map
        stage_t.kind).count .dow_xacts +
      ((chain_xact_handlers deps report base_handler handle_individual_xacts).stages.map
        stage_t.kind).count .by_payee_xacts ≤ 1 ∧
    ((chain_xact_handlers deps report base_handler handle_individual_xacts).stages.map
        stage_t.kind).count .subtotal_xacts ≤ 1 := by
  cases handle_individual_xacts
  · rw [stages_chain_false]
    simp only [tail_stages, List.map_append, List.count_append,
      apply_ite (List.map stage_t.kind), apply_ite (List.count class_t.dow_xacts),
      apply_ite (List.count class_t.by_payee_xacts),
      apply_ite (List.count class_t.subtotal_xacts),
      List.map_cons, List.map_nil, stage_t.kind, List.map_map]
    simp [Function.comp_def, stage_t.kind, List.count_replicate]
  · rw [stages_chain_true]
    simp only [tail_stages, upper_stages, component_stages, lower_stages, List.map_append, List.count_append,
      apply_ite (List.map stage_t.kind), apply_ite (List.count class_t.dow_xacts),
      apply_ite (List.count class_t.by_payee_xacts),
      apply_ite (List.count class_t.subtotal_xacts),
      List.map_cons, List.map_nil, stage_t.kind, List.map_map]
    simp [Function.comp_def, stage_t.kind, List.count_replicate]
    constructor
    · split_ifs <;> simp
    · split_ifs <;> simp

/-- C5, counterexample. With `report_period = "monthly"` and nothing else
set, the chain is date sort, interval, calculator: the interval stage is
not upstream of the date sort, it is the date sort that hands its output to
the interval stage. -/
theorem interval_not_upstream_of_date_sort :
    ({ plain_report with report_period := "monthly".toList } :
        report_t Unit Unit Unit).report_period ≠ [] ∧
    (chain_xact_handlers plain_deps
        { plain_report with report_period := "monthly".toList } () true).stages
      = [.sort_xacts ['d'], .interval_xacts "monthly".toList false, .calc_xacts] ∧
    occurs_before (.interval_xacts "monthly".toList false) (.sort_xacts ['d'])
      (chain_xact_handlers plain_deps
        { plain_report with report_period := "monthly".toList } () true).stages = false := by
  decide

/-- C5, amended. On the posting path with a non-empty `report_period` the
chain holds exactly one interval stage, built from `report_period` (and the
remember-components flag), and a sort stage on the date expression `d`
immediately upstream of it: the date sort hands its output to the interval
stage.  No other sort stage lies upstream of that date sort. -/
theorem date_sort_feeds_interval (deps : deps_t value_t date_t)
    (report : report_t keep_details_t session_t expr_t) (base_handler : β)
    (hperiod : report.report_period ≠ []) :
    ∃ upstream downstream : List (stage_t keep_details_t session_t expr_t value_t date_t),
      (chain_xact_handlers deps report base_handler true).stages
        = upstream ++ .sort_xacts ['d'] ::
            .interval_xacts report.report_period (!report.descend_expr.isEmpty) ::
            downstream ∧
      (∀ s ∈ upstream, s.kind ≠ .interval_xacts ∧ s.kind ≠ .sort_xacts ∧
        s.kind ≠ .sort_entries) ∧
      (∀ s ∈ downstream, s.kind ≠ .interval_xacts) := by
  have hne : (!report.report_period.isEmpty) = true := by
    simpa [List.isEmpty_iff] using hperiod
  refine ⟨tail_stages report,
    (upper_stages deps report).drop 2 ++ (component_stages report ++ lower_stages report),
    ?_, ?_, ?_⟩
  · rw [stages_chain_true]
    simp only [upper_stages, hne, if_true, List.cons_append, List.nil_append,
      List.drop_succ_cons, List.drop_zero, List.append_assoc]
  · intro s hs
    have h1 := kind_ne_of_count_eq_zero (tail_stages report) .interval_xacts (by
      simp only [tail_stages, List.map_append, List.count_append,
        apply_ite (List.map stage_t.kind), apply_ite (List.count class_t.interval_xacts),
        List.map_cons, List.map_nil, stage_t.kind, List.map_map]
      simp) s hs
    have h2 := kind_ne_of_count_eq_zero (tail_stages report) .sort_xacts (by
      simp only [tail_stages, List.map_append, List.count_append,
        apply_ite (List.map stage_t.kind), apply_ite (List.count class_t.sort_xacts),
        List.map_cons, List.map_nil, stage_t.kind, List.map_map]
      simp) s hs
    have h3 := kind_ne_of_count_eq_zero (tail_stages report) .sort_entries (by
      simp only [tail_stages, List.map_append, List.count_append,
        apply_ite (List.map stage_t.kind), apply_ite (List.count class_t.sort_entries),
        List.map_cons, List.map_nil, stage_t.kind, List.map_map]
      simp) s hs
    exact ⟨h1, h2, h3⟩
  · apply kind_ne_of_count_eq_zero
    simp only [upper_stages, hne, if_true, List.cons_append, List.nil_append,
      List.drop_succ_cons, List.drop_zero, component_stages, lower_stages, List.map_append,
      List.count_append, apply_ite (List.map stage_t.kind),
      apply_ite (List.count class_t.interval_xacts),
      List.map_cons, List.map_nil, stage_t.kind, List.map_map]
    simp [Function.comp_def, stage_t.kind, List.count_replicate,
      apply_ite (List.count class_t.interval_xacts)]

/-- C5, amended, at a concrete input: `report_period = "monthly"` together
with a user sort on `d`. -/
theorem date_sort_feeds_interval_witness :
    ∃ upstream downstream : List (stage_t Unit Unit Unit string (Option string)),
      (chain_xact_handlers plain_deps
          { plain_report with report_period := "monthly".toList, sort_string := ['d'] }
          () true).stages
        = upstream ++ .sort_xacts ['d'] :: .interval_xacts "monthly".toList false ::
            downstream ∧
      (∀ s ∈ upstream, s.kind ≠ .interval_xacts ∧ s.kind ≠ .sort_xacts ∧
        s.kind ≠ .sort_entries) ∧
      (∀ s ∈ downstream, s.kind ≠ .interval_xacts) :=
  date_sort_feeds_interval plain_deps
    { plain_report with report_period := "monthly".toList, sort_string := ['d'] } ()
    (by decide)

/-- C6. On the posting path, a non-empty `descend_expr` with `k` semicolons
adds exactly `k + 1` component stages, contiguous in the chain: there are
segments, none containing `;`, whose join with `;` is `descend_expr`, and
the component stages in execution order carry these segments from left to
right.  An empty `descend_expr` adds no component stage. -/
theorem component_stages_follow_descend_expr (deps : deps_t value_t date_t)
    (report : report_t keep_details_t session_t expr_t) (base_handler : β) :
    (report.descend_expr ≠ [] →
      ∃ (segments : List string)
        (upstream downstream : List (stage_t keep_details_t session_t expr_t value_t date_t)),
        (chain_xact_handlers deps report base_handler true).stages
          = upstream ++
              segments.map (fun i => stage_t.component_xacts i report.what_to_keep) ++
              downstream ∧
        (∀ s ∈ upstream, s.kind ≠ .component_xacts) ∧
        (∀ s ∈ downstream, s.kind ≠ .component_xacts) ∧
        segments.length = report.descend_expr.count ';' + 1 ∧
        (∀ segment ∈ segments, ';' ∉ segment) ∧
        [';'].intercalate segments = report.descend_expr) ∧
    (report.descend_expr = [] →
      ∀ s ∈ (chain_xact_handlers deps report base_handler true).stages,
        s.kind ≠ .component_xacts) := by
  constructor
  · intro hne
    have hne2 : (!report.descend_expr.isEmpty) = true := by
      simpa [List.isEmpty_iff] using hne
    obtain ⟨segs, e1, e2, e3, e4⟩ :=
      split_descend_expr_spec report.descend_expr (report.descend_expr.length + 1) 0 []
        (by simp)
    simp only [List.nil_append, List.drop_zero] at e1 e2 e3 e4
    refine ⟨segs, tail_stages report ++ upper_stages deps report, lower_stages report,
      ?_, ?_, ?_, e2, e3, e4⟩
    · rw [stages_chain_true]
      simp only [component_stages, hne2, if_true, e1, List.append_assoc]
    · apply kind_ne_of_count_eq_zero
      simp only [tail_stages, upper_stages, List.map_append, List.count_append,
        apply_ite (List.map stage_t.kind), apply_ite (List.count class_t.component_xacts),
        List.map_cons, List.map_nil, stage_t.kind, List.map_map]
      simp
    · apply kind_ne_of_count_eq_zero
      simp only [lower_stages, List.map_append, List.count_append,
        apply_ite (List.map stage_t.kind), apply_ite (List.count class_t.component_xacts),
        List.map_cons, List.map_nil, stage_t.kind, List.map_map]
      simp [apply_ite (List.count class_t.component_xacts)]
  · intro he
    apply kind_ne_of_count_eq_zero
    rw [stages_chain_true]
    simp only [tail_stages, upper_stages, component_stages, lower_stages, List.map_append,
      List.count_append,
      apply_ite (List.map stage_t.kind), apply_ite (List.count class_t.component_xacts),
      List.map_cons, List.map_nil, stage_t.kind, List.map_map]
    simp [Function.comp_def, stage_t.kind, List.count_replicate, he]


/-- C6 at a concrete input: `descend_expr = "a;bc;;d"` has three semicolons
and yields four component stages, for `a`, `bc`, the empty segment and `d`,
in this order from upstream to downstream. -/
theorem component_stages_follow_descend_expr_witness :
    ({ plain_report with descend_expr := "a;bc;;d".toList } :
        report_t Unit Unit Unit).descend_expr ≠ [] ∧
    (chain_xact_handlers plain_deps { plain_report with descend_expr := "a;bc;;d".toList }
        () true).stages
      = [.component_xacts ['a'] (), .component_xacts ['b', 'c'] (),
          .component_xacts [] (), .component_xacts ['d'] (), .calc_xacts] ∧
    ∃ (segments : List string)
      (upstream downstream : List (stage_t Unit Unit Unit string (Option string))),
      (chain_xact_handlers plain_deps { plain_report with descend_expr := "a;bc;;d".toList }
          () true).stages
        = upstream ++ segments.map (fun i => stage_t.component_xacts i ()) ++ downstream ∧
      (∀ s ∈ upstream, s.kind ≠ .component_xacts) ∧
      (∀ s ∈ downstream, s.kind ≠ .component_xacts) ∧
      segments.length = ("a;bc;;d".toList).count ';' + 1 ∧
      (∀ segment ∈ segments, ';' ∉ segment) ∧
      [';'].intercalate segments = "a;bc;;d".toList :=
  ⟨by decide, by decide,
    (component_stages_follow_descend_expr plain_deps
      { plain_report with descend_expr := "a;bc;;d".toList } ()).1 (by decide)⟩

/-- C7. On the account path (`handle_individual_xacts` false) every stage
of the chain is one of the tail stages built from the configuration
(payee rewrite, primary filter, anonymise, related expansion, invert), none
has the class of a stage of steps 1 to 11 other than the primary filter's
own class, and the terminal handler is the supplied one.  On the posting
path the same tail stages, in the same order, form the upstream end of the
chain, and what follows them holds no invert, related, anonymise or payee
stage. -/
theorem account_path_has_only_tail (deps : deps_t value_t date_t)
    (report : report_t keep_details_t session_t expr_t) (base_handler : β) :
    (∀ s ∈ (chain_xact_handlers deps report base_handler false).stages,
      (s = .set_comm_as_payee ∨ s = .set_code_as_payee ∨
        (s = .filter_xacts report.predicate report.what_to_keep ∧ report.predicate ≠ []) ∨
        s = .anonymize_xacts ∨ s = .related_xacts report.show_all_related ∨
        s = .invert_xacts) ∧
      s.kind ∉ [class_t.truncate_entries, .calc_xacts, .component_xacts, .reconcile_xacts,
        .sort_entries, .sort_xacts, .changed_value_xacts, .collapse_xacts,
        .subtotal_xacts, .dow_xacts, .by_payee_xacts, .interval_xacts]) ∧
    (chain_xact_handlers deps report base_handler false).terminal = base_handler ∧
    ∃ body : List (stage_t keep_details_t session_t expr_t value_t date_t),
      (chain_xact_handlers deps report base_handler true).stages
        = (chain_xact_handlers deps report base_handler false).stages ++ body ∧
      ∀ s ∈ body, s.kind ∉ [class_t.invert_xacts, .related_xacts, .anonymize_xacts,
        .set_comm_as_payee, .set_code_as_payee] := by
  refine ⟨?_, terminal_chain deps report base_handler false,
    upper_stages deps report ++ (component_stages report ++ lower_stages report), ?_, ?_⟩
  · rw [stages_chain_false]
    intro s hs
    have key : s = .set_comm_as_payee ∨ s = .set_code_as_payee ∨
        (s = .filter_xacts report.predicate report.what_to_keep ∧ report.predicate ≠ []) ∨
        s = .anonymize_xacts ∨ s = .related_xacts report.show_all_related ∨
        s = .invert_xacts := by
      simp only [tail_stages, List.mem_append] at hs
      rcases hs with hs | hs | hs | hs | hs
      all_goals split_ifs at hs <;> simp at hs <;> simp_all
    refine ⟨key, ?_⟩
    rcases key with h | h | h | h | h | h
    all_goals first | (rw [h]; simp [stage_t.kind]) | (rw [h.1]; simp [stage_t.kind])
  · rw [stages_chain_true, stages_chain_false]
  · intro s hs
    have hk : ∀ k ∈ [class_t.invert_xacts, .related_xacts, .anonymize_xacts,
        .set_comm_as_payee, .set_code_as_payee], s.kind ≠ k := by
      intro k hkm
      refine kind_ne_of_count_eq_zero _ k ?_ s hs
      simp only [List.mem_cons, List.mem_singleton, List.not_mem_nil, or_false] at hkm
      rcases hkm with rfl | rfl | rfl | rfl | rfl
      all_goals
        simp only [upper_stages, component_stages, lower_stages, List.map_append,
          List.count_append, apply_ite (List.map stage_t.kind), apply_ite (List.count _),
          List.map_cons, List.map_nil, stage_t.kind, List.map_map]
        simp [Function.comp_def, stage_t.kind, List.count_replicate, apply_ite (List.count _)]
    intro hmem
    exact hk _ hmem rfl

/-- C8. On the posting path the reconciliation stages of the chain are:
none when `reconcile_balance` is empty (whatever `reconcile_date` is), and
otherwise exactly one, whose target is the value of `reconcile_balance` and
whose cutoff is the parsed `reconcile_date` when that is non-empty and the
current date otherwise. -/
theorem reconcile_stage_iff_balance (deps : deps_t value_t date_t)
    (report : report_t keep_details_t session_t expr_t) (base_handler : β) :
    (chain_xact_handlers deps report base_handler true).stages.filter
        (fun s => decide (s.kind = .reconcile_xacts))
      = if report.reconcile_balance = [] then []
        else [.reconcile_xacts (deps.value_of_string report.reconcile_balance)
          (if report.reconcile_date = [] then deps.CURRENT_DATE
            else deps.parse_date report.reconcile_date)] := by
  rw [stages_chain_true]
  simp only [tail_stages, upper_stages, component_stages, lower_stages, List.filter_append,
    apply_ite (List.filter _), List.filter_cons, List.filter_nil, stage_t.kind]
  simp [List.filter_map, Function.comp_def, stage_t.kind]

/-- C9. On both paths the chain holds at most one payee-rewrite stage and,
when present, it is the outermost stage: `set_comm_as_payee` when
`comm_as_payee` is set (also when `code_as_payee` is set too),
`set_code_as_payee` when only `code_as_payee` is set, and none when neither
is set. -/
theorem payee_rewrite_outermost (deps : deps_t value_t date_t)
    (report : report_t keep_details_t session_t expr_t) (base_handler : β)
    (handle_individual_xacts : Bool) :
    ∃ inner : List (stage_t keep_details_t session_t expr_t value_t date_t),
      (chain_xact_handlers deps report base_handler handle_individual_xacts).stages
        = (if report.comm_as_payee then [stage_t.set_comm_as_payee]
            else if report.code_as_payee then [stage_t.set_code_as_payee] else []) ++ inner ∧
      ∀ s ∈ inner, s.kind ≠ .set_comm_as_payee ∧ s.kind ≠ .set_code_as_payee := by
  refine ⟨((if !report.predicate.isEmpty then
        [stage_t.filter_xacts report.predicate report.what_to_keep] else []) ++
      ((if report.anonymize then [stage_t.anonymize_xacts] else []) ++
      ((if report.show_related then [stage_t.related_xacts report.show_all_related]
        else []) ++
      (if report.show_inverted then [stage_t.invert_xacts] else [])))) ++
    (if handle_individual_xacts then
      upper_stages deps report ++ (component_stages report ++ lower_stages report)
      else []), ?_, ?_⟩
  · cases handle_individual_xacts
    · rw [stages_chain_false]
      simp only [tail_stages, Bool.false_eq_true, if_false, List.append_nil]
    · rw [stages_chain_true]
      simp only [tail_stages, if_true, List.append_assoc]
  · intro s hs
    constructor
    · refine kind_ne_of_count_eq_zero _ _ ?_ s hs
      simp only [upper_stages, component_stages, lower_stages, List.map_append,
        List.count_append, apply_ite (List.map stage_t.kind), apply_ite (List.count _),
        List.map_cons, List.map_nil, stage_t.kind, List.map_map]
      simp [Function.comp_def, stage_t.kind, List.count_replicate, apply_ite (List.count _)]
    · refine kind_ne_of_count_eq_zero _ _ ?_ s hs
      simp only [upper_stages, component_stages, lower_stages, List.map_append,
        List.count_append, apply_ite (List.map stage_t.kind), apply_ite (List.count _),
        List.map_cons, List.map_nil, stage_t.kind, List.map_map]
      simp [Function.comp_def, stage_t.kind, List.count_replicate, apply_ite (List.count _)]

/-- C10, counterexample. With `head_entries = -1` and `tail_entries = 0`
neither count is positive, yet the posting-path chain holds a
truncate-entries stage (built with `(-1, 0)`): the test in the code is
"non-zero", not "positive". -/
theorem truncate_present_for_negative_head :
    (chain_xact_handlers plain_deps { plain_report with head_entries := -1 } () true).stages
      = [.calc_xacts, .truncate_entries (-1) 0] ∧
    ¬ (class_t.truncate_entries ∈
        (chain_xact_handlers plain_deps { plain_report with head_entries := -1 }
          () true).stages.map stage_t.kind ↔
      (({ plain_report with head_entries := -1 } : report_t Unit Unit Unit).head_entries > 0 ∨
        ({ plain_report with head_entries := -1 } : report_t Unit Unit Unit).tail_entries
          > 0)) := by
  decide

/-- C10, amended. On the posting path the truncate-entries stages of the
chain are: exactly one, constructed with `(head_entries, tail_entries)`,
when `head_entries` or `tail_entries` is non-zero, and none when both are
zero; when present it is the last stage of the chain, immediately in front
of the terminal handler. -/
theorem truncate_stage_iff_nonzero (deps : deps_t value_t date_t)
    (report : report_t keep_details_t session_t expr_t) (base_handler : β) :
    (chain_xact_handlers deps report base_handler true).stages.filter
        (fun s => decide (s.kind = .truncate_entries))
      = (if report.head_entries ≠ 0 ∨ report.tail_entries ≠ 0 then
          [.truncate_entries report.head_entries report.tail_entries] else []) ∧
    (report.head_entries ≠ 0 ∨ report.tail_entries ≠ 0 →
      (chain_xact_handlers deps report base_handler true).stages.getLast?
        = some (.truncate_entries report.head_entries report.tail_entries)) ∧
    (chain_xact_handlers deps report base_handler true).terminal = base_handler := by
  refine ⟨?_, ?_, terminal_chain deps report base_handler true⟩
  · rw [stages_chain_true]
    simp only [tail_stages, upper_stages, component_stages, lower_stages,
      List.filter_append, apply_ite (List.filter _), List.filter_cons, List.filter_nil,
      stage_t.kind]
    simp [List.filter_map, Function.comp_def, stage_t.kind]
  · intro h
    have e : (chain_xact_handlers deps report base_handler true).stages
        = (tail_stages report ++ (upper_stages deps report ++ (component_stages report ++
            ([stage_t.calc_xacts] ++
              (if !report.display_predicate.isEmpty then
                [stage_t.filter_xacts report.display_predicate report.what_to_keep]
                else []))))) ++
          [stage_t.truncate_entries report.head_entries report.tail_entries] := by
      rw [stages_chain_true]
      simp only [lower_stages, if_pos h, List.append_assoc]
    rw [e]
    exact List.getLast?_concat _

/-- C10, amended, at a concrete input: `head_entries = -1`,
`tail_entries = 3`. -/
theorem truncate_stage_iff_nonzero_witness :
    (chain_xact_handlers plain_deps
        { plain_report with head_entries := -1, tail_entries := 3 } () true).stages.getLast?
      = some (.truncate_entries (-1) 3) :=
  (truncate_stage_iff_nonzero plain_deps
    { plain_report with head_entries := -1, tail_entries := 3 } ()).2.1 (by decide)

/-- C19. On both paths every aggregating stage of the chain (subtotal,
days-of-the-week, by-payee, interval) carries the same remember-components
flag, and that flag is true if and only if `descend_expr` is non-empty. -/
theorem remember_components_iff_descend_expr (deps : deps_t value_t date_t)
    (report : report_t keep_details_t session_t expr_t) (base_handler : β)
    (handle_individual_xacts : Bool) :
    ∀ s ∈ (chain_xact_handlers deps report base_handler handle_individual_xacts).stages,
      ∀ remember_components : Bool,
        (s = .subtotal_xacts remember_components ∨ s = .dow_xacts remember_components ∨
          s = .by_payee_xacts remember_components ∨
          ∃ period, s = .interval_xacts period remember_components) →
        (remember_components = true ↔ report.descend_expr ≠ []) := by
  intro s hs rc h
  have key : rc = !report.descend_expr.isEmpty := by
    cases handle_individual_xacts
    · rw [stages_chain_false] at hs
      simp only [tail_stages, List.mem_append] at hs
      rcases h with rfl | rfl | rfl | ⟨period, rfl⟩ <;>
        (rcases hs with hs | hs | hs | hs | hs <;> split_ifs at hs <;> simp at hs)
    · rw [stages_chain_true] at hs
      simp only [tail_stages, upper_stages, component_stages, lower_stages,
        List.mem_append] at hs
      rcases h with rfl | rfl | rfl | ⟨period, rfl⟩ <;>
        (rcases hs with (hs | hs | hs | hs | hs) |
            (hs | hs | hs | hs | hs | hs | hs | hs) | hs | hs | hs | hs <;>
          (try split_ifs at hs) <;> (simp at hs; try (first | exact hs | exact hs.2)))
  rw [key]
  simp [List.isEmpty_iff]

/-- C19 at a concrete input: with `descend_expr = "a"` and `show_subtotal`
set the subtotal stage of the chain carries the flag `true`. -/
theorem remember_components_iff_descend_expr_witness :
    (true = true ↔
      ({ plain_report with descend_expr := ['a'], show_subtotal := true } :
        report_t Unit Unit Unit).descend_expr ≠ []) :=
  remember_components_iff_descend_expr plain_deps
    { plain_report with descend_expr := ['a'], show_subtotal := true } () true
    (.subtotal_xacts true) (by decide) true (Or.inl rfl)

/-- C20. Each optional stage occurs at most once and exactly when its
option is set.  On both paths: invert iff `show_inverted`, related
expansion iff `show_related` (built with `show_all_related`), anonymise iff
`anonymize`; the filter stages are the primary filter iff `predicate` is
non-empty, followed on the posting path by the secondary filter iff
`secondary_predicate` is non-empty and the display filter iff
`display_predicate` is non-empty.  On the posting path: revaluation iff
`show_revalued` (built with `show_revalued_only`), collapse iff
`show_collapsed`, and for a non-empty `sort_string` exactly one user sort
stage, `sort_entries` when `entry_sort` is set and `sort_xacts` otherwise
(next to the date sort of the interval step), none for an empty
`sort_string`.  Changing only `entry_sort`, `show_revalued_only` or
`show_all_related` never changes the number of stages. -/
theorem optional_stage_iff_option (deps : deps_t value_t date_t)
    (report : report_t keep_details_t session_t expr_t) (base_handler : β) :
    (∀ handle_individual_xacts : Bool,
      (chain_xact_handlers deps report base_handler handle_individual_xacts).stages.filter
          (fun s => decide (s.kind = .invert_xacts))
        = (if report.show_inverted then [.invert_xacts] else []) ∧
      (chain_xact_handlers deps report base_handler handle_individual_xacts).stages.filter
          (fun s => decide (s.kind = .related_xacts))
        = (if report.show_related then [.related_xacts report.show_all_related] else []) ∧
      (chain_xact_handlers deps report base_handler handle_individual_xacts).stages.filter
          (fun s => decide (s.kind = .anonymize_xacts))
        = (if report.anonymize then [.anonymize_xacts] else []) ∧
      (chain_xact_handlers deps report base_handler handle_individual_xacts).stages.filter
          (fun s => decide (s.kind = .filter_xacts))
        = (if report.predicate = [] then []
            else [.filter_xacts report.predicate report.what_to_keep]) ++
          (if handle_individual_xacts then
            (if report.secondary_predicate = [] then []
              else [.filter_xacts report.secondary_predicate report.what_to_keep]) ++
            (if report.display_predicate = [] then []
              else [.filter_xacts report.display_predicate report.what_to_keep])
          else [])) ∧
    (chain_xact_handlers deps report base_handler true).stages.filter
        (fun s => decide (s.kind = .changed_value_xacts))
      = (if report.show_revalued then
          [.changed_value_xacts report.total_expr report.show_revalued_only] else []) ∧
    (chain_xact_handlers deps report base_handler true).stages.filter
        (fun s => decide (s.kind = .collapse_xacts))
      = (if report.show_collapsed then [.collapse_xacts report.session] else []) ∧
    (chain_xact_handlers deps report base_handler true).stages.filter
        (fun s => decide (s.kind = .sort_entries))
      = (if report.sort_string ≠ [] ∧ report.entry_sort = true then
          [.sort_entries report.sort_string] else []) ∧
    (chain_xact_handlers deps report base_handler true).stages.filter
        (fun s => decide (s.kind = .sort_xacts))
      = (if report.report_period = [] then [] else [.sort_xacts ['d']]) ++
        (if report.sort_string ≠ [] ∧ report.entry_sort = false then
          [.sort_xacts report.sort_string] else []) ∧
    (∀ (handle_individual_xacts entry_sort show_revalued_only show_all_related : Bool),
      (chain_xact_handlers deps
          { report with entry_sort := entry_sort, show_revalued_only := show_revalued_only,
                        show_all_related := show_all_related }
          base_handler handle_individual_xacts).stages.length
        = (chain_xact_handlers deps report base_handler handle_individual_xacts).stages.length)
    := by
  refine ⟨?_, ?_, ?_, ?_, ?_, ?_⟩
  · intro flag
    cases flag
    · rw [stages_chain_false]
      simp only [tail_stages, List.filter_append, apply_ite (List.filter _),
        List.filter_cons, List.filter_nil, stage_t.kind]
      simp
    · rw [stages_chain_true]
      simp only [tail_stages, upper_stages, component_stages, lower_stages,
        List.filter_append, apply_ite (List.filter _), List.filter_cons, List.filter_nil,
        stage_t.kind]
      simp [List.filter_map, Function.comp_def, stage_t.kind]
  · rw [stages_chain_true]
    simp only [tail_stages, upper_stages, component_stages, lower_stages,
      List.filter_append, apply_ite (List.filter _), List.filter_cons, List.filter_nil,
      stage_t.kind]
    simp [List.filter_map, Function.comp_def, stage_t.kind]
  · rw [stages_chain_true]
    simp only [tail_stages, upper_stages, component_stages, lower_stages,
      List.filter_append, apply_ite (List.filter _), List.filter_cons, List.filter_nil,
      stage_t.kind]
    simp [List.filter_map, Function.comp_def, stage_t.kind]
  · rw [stages_chain_true]
    simp only [tail_stages, upper_stages, component_stages, lower_stages,
      List.filter_append, apply_ite (List.filter _), List.filter_cons, List.filter_nil,
      stage_t.kind]
    simp [List.filter_map, Function.comp_def, stage_t.kind]
    split_ifs <;> simp_all
  · rw [stages_chain_true]
    simp only [tail_stages, upper_stages, component_stages, lower_stages,
      List.filter_append, apply_ite (List.filter _), List.filter_cons, List.filter_nil,
      stage_t.kind]
    simp [List.filter_map, Function.comp_def, stage_t.kind]
    split_ifs <;> simp_all
  · intro flag b0 b1 b2
    cases flag
    · rw [stages_chain_false, stages_chain_false]
      simp only [tail_stages, List.length_append, apply_ite List.length,
        List.length_cons, List.length_nil]
    · rw [stages_chain_true, stages_chain_true]
      simp only [tail_stages, upper_stages, component_stages, lower_stages,
        List.length_append, apply_ite List.length, List.length_cons, List.length_nil,
        List.length_map, ite_self]

/-- C22, counterexample. On the account path (`handle_individual_xacts`
false) with `show_subtotal` and `days_of_the_week` both set the chain has
no stage at all: it holds neither the subtotal stage nor the
days-of-the-week stage. -/
theorem account_path_builds_no_aggregator :
    (chain_xact_handlers plain_deps
        { plain_report with show_subtotal := true, days_of_the_week := true }
        () false).stages = [] ∧
    ¬ (class_t.subtotal_xacts ∈
          (chain_xact_handlers plain_deps
            { plain_report with show_subtotal := true, days_of_the_week := true }
            () false).stages.map stage_t.kind ∧
        class_t.dow_xacts ∈
          (chain_xact_handlers plain_deps
            { plain_report with show_subtotal := true, days_of_the_week := true }
            () false).stages.map stage_t.kind) := by
  decide

/-- C22, amended. On the posting path the group aggregator stages of the
chain are, in execution order: the days-of-the-week stage when
`days_of_the_week` is set, else the by-payee stage when `by_payee` is set,
followed by the subtotal stage when `show_subtotal` is set.  So the
days-of-the-week and by-payee stages never occur together, `by_payee` is
ignored when `days_of_the_week` is set, and with `show_subtotal` the chain
holds both stages, the days-of-the-week or by-payee stage upstream of the
subtotal stage.  On the account path the chain holds none of them. -/
theorem aggregator_stages_of_chain (deps : deps_t value_t date_t)
    (report : report_t keep_details_t session_t expr_t) (base_handler : β)
    (handle_individual_xacts : Bool) :
    (chain_xact_handlers deps report base_handler handle_individual_xacts).stages.filter
        (fun s => decide (s.kind = .subtotal_xacts ∨ s.kind = .dow_xacts ∨
          s.kind = .by_payee_xacts))
      = if handle_individual_xacts then
          (if report.days_of_the_week then [.dow_xacts (!report.descend_expr.isEmpty)]
            else if report.by_payee then [.by_payee_xacts (!report.descend_expr.isEmpty)]
            else []) ++
          (if report.show_subtotal then [.subtotal_xacts (!report.descend_expr.isEmpty)]
            else [])
        else [] := by
  cases handle_individual_xacts
  · rw [stages_chain_false]
    simp only [tail_stages, List.filter_append, apply_ite (List.filter _),
      List.filter_cons, List.filter_nil, stage_t.kind]
    simp
  · rw [stages_chain_true]
    simp only [tail_stages, upper_stages, component_stages, lower_stages,
      List.filter_append, apply_ite (List.filter _), List.filter_cons, List.filter_nil,
      stage_t.kind]
    simp [List.filter_map, Function.comp_def, stage_t.kind]

/-- C22, amended, at a concrete input: `show_subtotal`, `days_of_the_week`
and `by_payee` all set on the posting path. -/
theorem aggregator_stages_of_chain_witness :
    (chain_xact_handlers plain_deps
        { plain_report with show_subtotal := true, days_of_the_week := true,
                            by_payee := true }
        () true).stages.filter
        (fun s => decide (s.kind = .subtotal_xacts ∨ s.kind = .dow_xacts ∨
          s.kind = .by_payee_xacts))
      = [.dow_xacts false, .subtotal_xacts false] :=
  aggregator_stages_of_chain plain_deps
    { plain_report with show_subtotal := true, days_of_the_week := true, by_payee := true }
    () true

end claims

section lookup_claims

/-- C11. On every row of the option table of spec §4.4 other than
`comm-as-payee`/`x`, `lookup("opt_" + n)` resolves locally to the setter of
the row of `n`; the two names of an alias pair carry the same setter in the
table, and `verbose`, `verify`, `debug_`, `trace_` resolve to the ignore
setters. -/
theorem lookup_agrees_with_option_table (env : lookup_env) :
    ∀ row ∈ spec_option_table,
      lookup env ("opt_".toList ++ row.1.toList) = .functor (.named row.2) := by
  intro row hrow
  have hnul : ∀ r ∈ spec_option_table, NUL ∉ r.1.toList := by decide
  rw [lookup_under_opt, c_str_eq_self _ (hnul row hrow), lookup_opt_table row hrow]

/-- C11 at a concrete input: the alias pair `sort_`/`S_`. -/
theorem lookup_agrees_with_option_table_witness :
    lookup plain_env "opt_sort_".toList = .functor (.named .option_sort_) ∧
    lookup plain_env "opt_S_".toList = .functor (.named .option_sort_) :=
  ⟨lookup_agrees_with_option_table plain_env ("sort_", .option_sort_) (by decide),
   lookup_agrees_with_option_table plain_env ("S_", .option_sort_) (by decide)⟩

/-- C12, the code at the failing input. `lookup("opt_x")` leaves the switch
without a match and returns `session.lookup("opt_x")`, while
`lookup("opt_comm-as-payee")` resolves locally to `option_comm_as_payee`. -/
theorem lookup_opt_x_is_delegated (env : lookup_env) :
    lookup env "opt_x".toList = .session_lookup "opt_x".toList ∧
    lookup env "opt_comm-as-payee".toList = .functor (.named .option_comm_as_payee) :=
  ⟨rfl, rfl⟩

/-- C13, counterexample. The names `ledger_cmd_b`, `ledger_cmd_p`,
`ledger_cmd_r` and `opt_v` are none of the names the spec lists, and
`lookup` does not delegate them: it resolves them locally. -/
theorem short_names_are_not_delegated :
    ("ledger_cmd_b".toList ∉ spec_names ∧
      lookup plain_env "ledger_cmd_b".toList
        = .functor (.reporter (.format_accounts ['B']) .accounts_report)) ∧
    ("ledger_cmd_p".toList ∉ spec_names ∧
      lookup plain_env "ledger_cmd_p".toList
        = .functor (.reporter (.format_xacts ['P']) .xacts_report)) ∧
    ("ledger_cmd_r".toList ∉ spec_names ∧
      lookup plain_env "ledger_cmd_r".toList
        = .functor (.reporter (.format_xacts ['R']) .xacts_report)) ∧
    ("opt_v".toList ∉ spec_names ∧
      lookup plain_env "opt_v".toList = .functor (.named .option_ignore)) := by
  decide

/-- C13, amended. For every name whose C string is none of the names the
spec lists, none of the one-letter names `ledger_cmd_b`, `ledger_cmd_p`,
`ledger_cmd_r`, `opt_v`, and does not start with `opt_x`, `lookup(name)` is
`session.lookup(name)`, called with the full original name. -/
theorem lookup_miss_delegates (env : lookup_env) (name : string)
    (hmiss : c_str name ∉ spec_names ++ short_names)
    (hx : (c_str name).take 5 ≠ "opt_x".toList) :
    lookup env name = .session_lookup name := by
  rcases lookup_functor_or_session env name with ⟨f, hl⟩ | hl
  · rcases lookup_functor_names env name f hl with h | h
    · exact absurd h hmiss
    · exact absurd h hx
  · exact hl

/-- C13, amended, at concrete inputs: the empty name, a name whose first
character has no case, and names with a recognised prefix and an
unrecognised remainder. -/
theorem lookup_miss_delegates_witness :
    lookup plain_env [] = .session_lookup [] ∧
    lookup plain_env "zzz".toList = .session_lookup "zzz".toList ∧
    lookup plain_env "ledger_cmd_csv".toList = .session_lookup "ledger_cmd_csv".toList ∧
    lookup plain_env "ledger_precmd_x".toList = .session_lookup "ledger_precmd_x".toList ∧
    lookup plain_env "opt_foo".toList = .session_lookup "opt_foo".toList :=
  ⟨lookup_miss_delegates plain_env [] (by decide) (by decide),
   lookup_miss_delegates plain_env "zzz".toList (by decide) (by decide),
   lookup_miss_delegates plain_env "ledger_cmd_csv".toList (by decide) (by decide),
   lookup_miss_delegates plain_env "ledger_precmd_x".toList (by decide) (by decide),
   lookup_miss_delegates plain_env "opt_foo".toList (by decide) (by decide)⟩

/-- C14, counterexample. `b`, `p` and `r` are none of the command names
the spec lists, yet `lookup` resolves `ledger_cmd_b`, `ledger_cmd_p` and
`ledger_cmd_r` locally, to the balance, print and register commands. -/
theorem one_letter_commands_resolve :
    "b" ∉ spec_cmd_names ∧ "p" ∉ spec_cmd_names ∧ "r" ∉ spec_cmd_names ∧
    lookup plain_env "ledger_cmd_b".toList
      = .functor (.reporter (.format_accounts ['B']) .accounts_report) ∧
    lookup plain_env "ledger_cmd_p".toList
      = .functor (.reporter (.format_xacts ['P']) .xacts_report) ∧
    lookup plain_env "ledger_cmd_r".toList
      = .functor (.reporter (.format_xacts ['R']) .xacts_report) := by
  decide

/-- C14, amended. `lookup("ledger_cmd_" + n)` resolves locally to a command
if and only if `n`, read as a C string, is one of `bal`, `balance`,
`equity`, `print`, `reg`, `register` or one of the one-letter names `b`,
`p`, `r`; `lookup("ledger_precmd_" + n)` resolves locally if and only if
`n` is one of `args`, `parse`, `period`, `eval`, `format`; every other `n`
is delegated to the session lookup under its full name. -/
theorem commands_resolved_by_lookup (env : lookup_env) (n : string) :
    ((∃ handler method,
        lookup env ("ledger_cmd_".toList ++ n) = .functor (.reporter handler method)) ↔
      c_str n ∈ spec_cmd_names.map String.toList ++ [['b'], ['p'], ['r']]) ∧
    (c_str n ∉ spec_cmd_names.map String.toList ++ [['b'], ['p'], ['r']] →
      lookup env ("ledger_cmd_".toList ++ n)
        = .session_lookup ("ledger_cmd_".toList ++ n)) ∧
    ((∃ f, lookup env ("ledger_precmd_".toList ++ n) = .functor (.named f)) ↔
      c_str n ∈ spec_precmd_names.map String.toList) ∧
    (c_str n ∉ spec_precmd_names.map String.toList →
      lookup env ("ledger_precmd_".toList ++ n)
        = .session_lookup ("ledger_precmd_".toList ++ n)) := by
  have hn := nul_not_mem_c_str n
  refine ⟨⟨?_, ?_⟩, ?_, ⟨?_, ?_⟩, ?_⟩
  · rintro ⟨handler, method, h⟩
    rw [lookup_under_cmd] at h
    cases hc : lookup_cmd env (c_str n) with
    | none => rw [hc] at h; cases h
    | some g => exact lookup_cmd_some env _ hn g hc
  · intro h
    obtain ⟨handler, method, hc⟩ := lookup_cmd_of_mem env _ h
    exact ⟨handler, method, by rw [lookup_under_cmd, hc]⟩
  · intro h
    rw [lookup_under_cmd]
    cases hc : lookup_cmd env (c_str n) with
    | none => rfl
    | some g => exact absurd (lookup_cmd_some env _ hn g hc) h
  · rintro ⟨f, h⟩
    rw [lookup_under_precmd] at h
    cases hc : lookup_precmd (c_str n) with
    | none => rw [hc] at h; cases h
    | some g => exact lookup_precmd_some _ g hc
  · intro h
    obtain ⟨f, hc⟩ := lookup_precmd_of_mem _ h
    exact ⟨f, by rw [lookup_under_precmd, hc]⟩
  · intro h
    rw [lookup_under_precmd]
    cases hc : lookup_precmd (c_str n) with
    | none => rfl
    | some g => exact absurd (lookup_precmd_some _ g hc) h

/-- C15. Every command resolved by `lookup` is a `reporter` whose formatter
takes `format_string` when that is non-empty and the session default
otherwise: `bal`/`balance` (and `b`) run the account report on
`format_accounts` with the balance format, `reg`/`register` (and `r`) the
posting report on `format_xacts` with the register format, `print` (and
`p`) the posting report on `format_xacts` with the print format, `equity`
the account report on `format_equity` with the print format. -/
theorem command_formatters (env : lookup_env) :
    (∀ n ∈ ["b", "bal", "balance"],
      lookup env ("ledger_cmd_".toList ++ n.toList)
        = .functor (.reporter
            (.format_accounts
              (if env.format_string = [] then env.balance_format else env.format_string))
            .accounts_report)) ∧
    (∀ n ∈ ["r", "reg", "register"],
      lookup env ("ledger_cmd_".toList ++ n.toList)
        = .functor (.reporter
            (.format_xacts
              (if env.format_string = [] then env.register_format else env.format_string))
            .xacts_report)) ∧
    (∀ n ∈ ["p", "print"],
      lookup env ("ledger_cmd_".toList ++ n.toList)
        = .functor (.reporter
            (.format_xacts
              (if env.format_string = [] then env.print_format else env.format_string))
            .xacts_report)) ∧
    lookup env "ledger_cmd_equity".toList
      = .functor (.reporter
          (.format_equity
            (if env.format_string = [] then env.print_format else env.format_string))
          .accounts_report) := by
  have hf : ∀ str, FORMAT env str = if env.format_string = [] then str else env.format_string := by
    intro str
    unfold FORMAT
    cases env.format_string <;> rfl
  refine ⟨?_, ?_, ?_, ?_⟩
  · intro n hn
    simp only [List.mem_cons, List.mem_singleton, List.not_mem_nil, or_false] at hn
    rcases hn with rfl | rfl | rfl <;> exact (hf _) ▸ rfl
  · intro n hn
    simp only [List.mem_cons, List.mem_singleton, List.not_mem_nil, or_false] at hn
    rcases hn with rfl | rfl | rfl <;> exact (hf _) ▸ rfl
  · intro n hn
    simp only [List.mem_cons, List.mem_singleton, List.not_mem_nil, or_false] at hn
    rcases hn with rfl | rfl <;> exact (hf _) ▸ rfl
  · exact (hf _) ▸ rfl

/-- C21, counterexample. The suffix made of one NUL character is not empty,
but `c_str()` ends the name in front of it: `p + 4` is the C string `x`,
`strcmp(p, "x")` is zero, the switch is left by `break` and the name is
delegated to `session.lookup` instead of resolving to
`option_comm_as_payee`. -/
theorem opt_x_nul_suffix_is_delegated :
    [NUL] ≠ ([] : string) ∧
    lookup plain_env ("opt_x".toList ++ [NUL])
      = .session_lookup ("opt_x".toList ++ [NUL]) ∧
    lookup plain_env ("opt_x".toList ++ [NUL])
      ≠ .functor (.named .option_comm_as_payee) := by
  decide

/-- C21, amended. In the `x` branch of the option switch the comparison is
inverted.  For every suffix `s` that is not empty as a C string (its first
character exists and is not NUL), `lookup("opt_x" + s)` resolves to
`option_comm_as_payee`; for every suffix that is empty as a C string, among
them the empty suffix, i.e. the name `opt_x` itself, nothing matches locally
and `lookup` returns `session.lookup` of the full name. -/
theorem opt_x_comparison_inverted (env : lookup_env) (s : string) :
    (c_str s ≠ [] →
      lookup env ("opt_x".toList ++ s) = .functor (.named .option_comm_as_payee)) ∧
    (c_str s = [] →
      lookup env ("opt_x".toList ++ s) = .session_lookup ("opt_x".toList ++ s)) := by
  have hname : "opt_x".toList ++ s = "opt_".toList ++ ('x' :: s) := rfl
  rw [hname, lookup_under_opt, c_str_cons_x, lookup_opt_cons_x]
  constructor
  · intro h
    rw [if_pos h]
  · intro h
    rw [if_neg (not_not.mpr h)]

/-- C21, amended, at concrete inputs: the suffixes `yz` and the empty
suffix. -/
theorem opt_x_comparison_inverted_witness :
    lookup plain_env "opt_xyz".toList = .functor (.named .option_comm_as_payee) ∧
    lookup plain_env "opt_x".toList = .session_lookup "opt_x".toList :=
  ⟨(opt_x_comparison_inverted plain_env "yz".toList).1 (by decide),
   (opt_x_comparison_inverted plain_env []).2 (by decide)⟩

end lookup_claims

section driver_claims

variable {σ ε β γ keep_details_t session_t expr_t value_t date_t : Type}

/-- C16, counterexample. With every option off and an empty `sort_string`,
`accounts_report` hands the account predicate `total` to
`pass_down_accounts` when the `empty` flag is set, exactly as when it is
not set: the account filter does not depend on `empty`. -/
theorem account_filter_ignores_empty :
    accounts_report (recording_ops () (fun _ => (none : Option Unit))) plain_deps
        { plain_driver_report with show_empty := true } () []
      = .returned
          [.pass_down_xacts (.base ()) .session_xacts_iterator,
           .calculate_sums () { plain_driver_report with show_empty := true },
           .pass_down_accounts () .basic_accounts_iterator ⟨"total".toList, ()⟩,
           .clean_xacts, .clean_accounts] ∧
    accounts_report (recording_ops () (fun _ => (none : Option Unit))) plain_deps
        { plain_driver_report with show_empty := false } () []
      = .returned
          [.pass_down_xacts (.base ()) .session_xacts_iterator,
           .calculate_sums () { plain_driver_report with show_empty := false },
           .pass_down_accounts () .basic_accounts_iterator ⟨"total".toList, ()⟩,
           .clean_xacts, .clean_accounts] :=
  ⟨rfl, rfl⟩

/-- C16, amended. `accounts_report` sums all accounts, then walks the
account tree with the basic iterator when `sort_string` is empty and with
the sorted iterator on `sort_string` otherwise, in both cases handing
`pass_down_accounts` the account predicate `total` (with `what_to_keep`),
whatever the `empty` flag is, and then cleans the posting and the account
xdata: on a run in which no call raises an error these are its calls, in
this order. -/
theorem accounts_report_calls (deps : deps_t value_t date_t)
    (report : driver_report_t keep_details_t session_t expr_t)
    (set_account_value : β) (handler : γ) :
    accounts_report (recording_ops set_account_value (fun _ => (none : Option ε))) deps
        report handler []
      = .returned
          [.pass_down_xacts
              (chain_xact_handlers deps report.toreport_t set_account_value false)
              .session_xacts_iterator,
           .calculate_sums report.amount_expr report,
           .pass_down_accounts handler
              (if report.sort_string = [] then .basic_accounts_iterator
                else .sorted_accounts_iterator report.sort_string)
              ⟨"total".toList, report.what_to_keep⟩,
           .clean_xacts, .clean_accounts] := by
  unfold accounts_report sum_all_accounts recording_ops
  cases hs : report.sort_string <;> simp [outcome.bind]

/-- C17. On a run in which the pass down the chain returns, `xacts_report`
builds the chain over the given handler with `handle_individual_xacts`
true, passes the postings of the session iterator through it and then
clears the xdata of all postings; `entry_report` does the same over the
postings of the entry and clears the xdata of that entry's postings only;
`accounts_report` clears all posting xdata and all account xdata after the
account walk.  Apart from this clearing the drivers leave the session as
the passes left it: the entries are untouched, and so is the xdata the
clean-up does not name. -/
theorem drivers_clear_xdata {X A : Type} (set_account_value : β)
    (pass_down_xacts :
      xact_handler β keep_details_t session_t expr_t value_t date_t → xacts_walker →
        session_state X A → outcome (session_state X A) ε)
    (calculate_sums : expr_t → driver_report_t keep_details_t session_t expr_t →
      session_state X A → outcome (session_state X A) ε)
    (pass_down_accounts : γ → accounts_walker → account_predicate keep_details_t →
      session_state X A → outcome (session_state X A) ε)
    (deps : deps_t value_t date_t)
    (report : driver_report_t keep_details_t session_t expr_t) :
    (∀ (handler : β) (s s1 : session_state X A),
      pass_down_xacts (chain_xact_handlers deps report.toreport_t handler true)
          .session_xacts_iterator s = .returned s1 →
      xacts_report
          (session_ops set_account_value pass_down_xacts calculate_sums pass_down_accounts)
          deps report handler s = .returned (clean_xacts s1) ∧
      (∀ id, (clean_xacts s1).xact_xdata id = none) ∧
      (clean_xacts s1).account_xdata = s1.account_xdata ∧
      (clean_xacts s1).entries = s1.entries) ∧
    (∀ (handler : β) (entry : entry_t) (s s1 : session_state X A),
      pass_down_xacts (chain_xact_handlers deps report.toreport_t handler true)
          (.entry_xacts_iterator entry) s = .returned s1 →
      entry_report
          (session_ops set_account_value pass_down_xacts calculate_sums pass_down_accounts)
          deps report handler entry s = .returned (clean_xacts_entry entry s1) ∧
      (∀ id ∈ entry.xacts, (clean_xacts_entry entry s1).xact_xdata id = none) ∧
      (∀ id, id ∉ entry.xacts →
        (clean_xacts_entry entry s1).xact_xdata id = s1.xact_xdata id) ∧
      (clean_xacts_entry entry s1).account_xdata = s1.account_xdata ∧
      (clean_xacts_entry entry s1).entries = s1.entries) ∧
    (∀ (handler : γ) (s s0 s1 s2 : session_state X A),
      pass_down_xacts (chain_xact_handlers deps report.toreport_t set_account_value false)
          .session_xacts_iterator s = .returned s0 →
      calculate_sums report.amount_expr report s0 = .returned s1 →
      pass_down_accounts handler
          (if report.sort_string = [] then .basic_accounts_iterator
            else .sorted_accounts_iterator report.sort_string)
          ⟨"total".toList, report.what_to_keep⟩ s1 = .returned s2 →
      accounts_report
          (session_ops set_account_value pass_down_xacts calculate_sums pass_down_accounts)
          deps report handler s = .returned (clean_accounts (clean_xacts s2)) ∧
      (∀ id, (clean_accounts (clean_xacts s2)).xact_xdata id = none) ∧
      (∀ id, (clean_accounts (clean_xacts s2)).account_xdata id = none) ∧
      (clean_accounts (clean_xacts s2)).entries = s2.entries) := by
  refine ⟨?_, ?_, ?_⟩
  · intro handler s s1 h
    refine ⟨?_, fun _ => rfl, rfl, rfl⟩
    simp only [xacts_report, session_ops, handle_individual_xacts_default, h, outcome.bind]
  · intro handler entry s s1 h
    refine ⟨?_, ?_, ?_, rfl, rfl⟩
    · simp only [entry_report, session_ops, handle_individual_xacts_default, h, outcome.bind]
    · intro id hid
      simp [clean_xacts_entry, hid]
    · intro id hid
      simp [clean_xacts_entry, hid]
  · intro handler s s0 s1 s2 h0 h1 h2
    refine ⟨?_, fun _ => rfl, fun _ => rfl, rfl⟩
    simp only [accounts_report, sum_all_accounts, session_ops, h0, h1, outcome.bind]
    cases hs : report.sort_string with
    | nil =>
      simp only [hs, if_true] at h2
      simp only [List.isEmpty_nil, if_true, h2]
    | cons c l =>
      simp only [hs, reduceCtorEq, if_false] at h2
      simp only [List.isEmpty_cons, Bool.false_eq_true, if_false, h2]

/-- C17 at a concrete input: a pass that leaves xdata on every posting and
every account, then `xacts_report` on the plain session. -/
theorem drivers_clear_xdata_witness :
    xacts_report (session_ops () marking_pass marking_pass (fun (_ : Unit) => marking_pass))
        plain_deps plain_driver_report () plain_session
      = .returned (clean_xacts (marking_pass () () plain_session).state) ∧
    (∀ id, (clean_xacts (marking_pass () () plain_session).state).xact_xdata id = none) ∧
    (clean_xacts (marking_pass () () plain_session).state).account_xdata 0 = some 2 :=
  let h := (drivers_clear_xdata () marking_pass marking_pass (fun (_ : Unit) => marking_pass)
    plain_deps plain_driver_report).1 () plain_session
      (marking_pass () () plain_session).state rfl
  ⟨h.1, h.2.1, rfl⟩

/-- C18, counterexample. A pass down the chain leaves xdata on the postings
and a stage raises an error: `xacts_report`, `entry_report` and
`accounts_report` return with that error and posting 0 still carries its
xdata; the xdata has not been cleared. -/
theorem aborted_report_keeps_xdata :
    (xacts_report (session_ops () failing_pass marking_pass (fun (_ : Unit) => marking_pass))
        plain_deps plain_driver_report () plain_session).error = some "error".toList ∧
    (xacts_report (session_ops () failing_pass marking_pass (fun (_ : Unit) => marking_pass))
        plain_deps plain_driver_report () plain_session).state.xact_xdata 0 = some 1 ∧
    (entry_report (session_ops () failing_pass marking_pass (fun (_ : Unit) => marking_pass))
        plain_deps plain_driver_report () ⟨[0, 1]⟩ plain_session).error
      = some "error".toList ∧
    (entry_report (session_ops () failing_pass marking_pass (fun (_ : Unit) => marking_pass))
        plain_deps plain_driver_report () ⟨[0, 1]⟩ plain_session).state.xact_xdata 0
      = some 1 ∧
    (accounts_report (session_ops () marking_pass marking_pass (fun (_ : Unit) => failing_pass))
        plain_deps plain_driver_report () plain_session).error = some "error".toList ∧
    (accounts_report (session_ops () marking_pass marking_pass (fun (_ : Unit) => failing_pass))
        plain_deps plain_driver_report () plain_session).state.xact_xdata 0 = some 1 ∧
    (accounts_report (session_ops () marking_pass marking_pass (fun (_ : Unit) => failing_pass))
        plain_deps plain_driver_report () plain_session).state.account_xdata 0 = some 2 := by
  decide

/-- C18, amended. If a stage raises an error while `xacts_report`,
`entry_report` or `accounts_report` is passing postings or accounts down
the chain (or while `accounts_report` sums the accounts), the error
propagates to the caller and the driver makes no further call: the
clean-up functions are not run and the session is left as the aborted call
left it. -/
theorem error_skips_cleanup
    (ops : driver_ops σ ε β γ keep_details_t session_t expr_t value_t date_t)
    (deps : deps_t value_t date_t)
    (report : driver_report_t keep_details_t session_t expr_t) :
    (∀ (handler : β) (s s1 : σ) (e : ε),
      ops.pass_down_xacts (chain_xact_handlers deps report.toreport_t handler true)
          .session_xacts_iterator s = .raised e s1 →
      xacts_report ops deps report handler s = .raised e s1) ∧
    (∀ (handler : β) (entry : entry_t) (s s1 : σ) (e : ε),
      ops.pass_down_xacts (chain_xact_handlers deps report.toreport_t handler true)
          (.entry_xacts_iterator entry) s = .raised e s1 →
      entry_report ops deps report handler entry s = .raised e s1) ∧
    (∀ (handler : γ) (s s1 : σ) (e : ε),
      sum_all_accounts ops deps report s = .raised e s1 →
      accounts_report ops deps report handler s = .raised e s1) ∧
    (∀ (handler : γ) (s s1 s2 : σ) (e : ε),
      sum_all_accounts ops deps report s = .returned s1 →
      ops.pass_down_accounts handler
          (if report.sort_string = [] then .basic_accounts_iterator
            else .sorted_accounts_iterator report.sort_string)
          ⟨"total".toList, report.what_to_keep⟩ s1 = .raised e s2 →
      accounts_report ops deps report handler s = .raised e s2) := by
  refine ⟨?_, ?_, ?_, ?_⟩
  · intro handler s s1 e h
    simp only [xacts_report, handle_individual_xacts_default, h, outcome.bind]
  · intro handler entry s s1 e h
    simp only [entry_report, handle_individual_xacts_default, h, outcome.bind]
  · intro handler s s1 e h
    simp only [accounts_report, h, outcome.bind]
  · intro handler s s1 s2 e h1 h2
    simp only [accounts_report, h1, outcome.bind]
    cases hs : report.sort_string with
    | nil =>
      simp only [hs, if_true] at h2
      simp only [List.isEmpty_nil, if_true, h2]
    | cons c l =>
      simp only [hs, reduceCtorEq, if_false] at h2
      simp only [List.isEmpty_cons, Bool.false_eq_true, if_false, h2]

/-- C18, amended, at a concrete input: the failing pass under
`xacts_report` on the plain session. -/
theorem error_skips_cleanup_witness :
    xacts_report (session_ops () failing_pass marking_pass (fun (_ : Unit) => marking_pass))
        plain_deps plain_driver_report () plain_session
      = .raised "error".toList (failing_pass () () plain_session).state :=
  (error_skips_cleanup
    (session_ops () failing_pass marking_pass (fun (_ : Unit) => marking_pass))
    plain_deps plain_driver_report).1 () plain_session
      (failing_pass () () plain_session).state "error".toList rfl

end driver_claims

section display_claims

variable {keep_details_t session_t expr_t format_t value_t date_t : Type}

/-- C23. `display_date` returns the item's effective date, formatted with
the report's `output_date_format`, when `use_effective_date` is set and an
effective date is present; in every other case, among them
`use_effective_date` set with no effective date, it returns the item's
primary date (`item.date()`) formatted with the same format.  So its value
is always one of these two dates, formatted. -/
theorem display_date_effective_or_primary
    (format_date : date_t → format_t → string) (string_value : string → value_t)
    (args : call_scope_t keep_details_t session_t expr_t format_t date_t) :
    (∀ d, args.item.use_effective_date = true → args.item.effective_date = some d →
      display_date format_date string_value args
        = string_value (format_date d args.report.output_date_format)) ∧
    (¬ (args.item.use_effective_date = true ∧ args.item.effective_date.isSome = true) →
      display_date format_date string_value args
        = string_value (format_date args.item.date args.report.output_date_format)) ∧
    (args.item.use_effective_date = true → args.item.effective_date = none →
      display_date format_date string_value args
        = string_value (format_date args.item.date args.report.output_date_format)) ∧
    (∃ d, (args.item.effective_date = some d ∨ d = args.item.date) ∧
      display_date format_date string_value args
        = string_value (format_date d args.report.output_date_format)) := by
  obtain ⟨report, ⟨flag, eff, date⟩⟩ := args
  cases flag <;> cases eff <;> refine ⟨?_, ?_, ?_, ?_⟩ <;>
    first
      | exact ⟨_, Or.inr rfl, rfl⟩
      | exact ⟨_, Or.inl rfl, rfl⟩
      | simp [display_date]

/-- C23 at concrete inputs: an item dated day 3 with the effective date
day 7 and the flag set, the same item with the flag unset, and an item with
the flag set and no effective date. -/
theorem display_date_effective_or_primary_witness :
    display_date sample_format_date id (plain_call_scope true (some 7)) = "d7".toList ∧
    display_date sample_format_date id (plain_call_scope false (some 7)) = "d3".toList ∧
    display_date sample_format_date id (plain_call_scope true none) = "d3".toList :=
  ⟨(display_date_effective_or_primary sample_format_date id
      (plain_call_scope true (some 7))).1 7 rfl rfl,
   (display_date_effective_or_primary sample_format_date id
      (plain_call_scope false (some 7))).2.1 (by decide),
   (display_date_effective_or_primary sample_format_date id
      (plain_call_scope true none)).2.2.1 rfl rfl⟩

end display_claims

end ledger
